import Mathlib

/-!
Package `tangl.es/code/blobs`: content-addressed blob storage.

A shallow embedding of `blob.go`, `storer.go` and `memstore.go`.

* Go values that are mutated through pointers (`*Memblob`, the memdb table) live in an
  explicit state that every operation takes and returns.
* Interface values (`Storer`, `io.WriteCloser`, `io.ReadCloser`) are records of functions
  over that state.
* A Go `error` is a value of `GoError`; `nil` is `none`.
* `crypto/sha256` and `encoding/hex` are implemented below (FIPS 180-4), over naturals
  reduced modulo `2 ^ 32`.
* The logger calls of the source have no effect on results and are left out.
-/

namespace Blobs

/-- A byte slice, `[]byte`. -/
abbrev Bytes := List UInt8

/-! ## crypto/sha256 and encoding/hex -/

/-- Rotation of a 32-bit word to the right by `n` bits. -/
def rotr32 (x n : Nat) : Nat := ((x >>> n) ||| (x <<< (32 - n))) % 2 ^ 32

/-- The 64 round constants of SHA-256. -/
def sha256K : List Nat := [
  0x428a2f98, 0x71374491, 0xb5c0fbcf, 0xe9b5dba5, 0x3956c25b, 0x59f111f1, 0x923f82a4, 0xab1c5ed5,
  0xd807aa98, 0x12835b01, 0x243185be, 0x550c7dc3, 0x72be5d74, 0x80deb1fe, 0x9bdc06a7, 0xc19bf174,
  0xe49b69c1, 0xefbe4786, 0x0fc19dc6, 0x240ca1cc, 0x2de92c6f, 0x4a7484aa, 0x5cb0a9dc, 0x76f988da,
  0x983e5152, 0xa831c66d, 0xb00327c8, 0xbf597fc7, 0xc6e00bf3, 0xd5a79147, 0x06ca6351, 0x14292967,
  0x27b70a85, 0x2e1b2138, 0x4d2c6dfc, 0x53380d13, 0x650a7354, 0x766a0abb, 0x81c2c92e, 0x92722c85,
  0xa2bfe8a1, 0xa81a664b, 0xc24b8b70, 0xc76c51a3, 0xd192e819, 0xd6990624, 0xf40e3585, 0x106aa070,
  0x19a4c116, 0x1e376c08, 0x2748774c, 0x34b0bcb5, 0x391c0cb3, 0x4ed8aa4a, 0x5b9cca4f, 0x682e6ff3,
  0x748f82ee, 0x78a5636f, 0x84c87814, 0x8cc70208, 0x90befffa, 0xa4506ceb, 0xbef9a3f7, 0xc67178f2]

/-- The eight 32-bit working words of SHA-256. -/
structure Sha256State where
  a : Nat
  b : Nat
  c : Nat
  d : Nat
  e : Nat
  f : Nat
  g : Nat
  h : Nat

/-- The initial hash value of SHA-256. -/
def sha256Init : Sha256State :=
  ⟨0x6a09e667, 0xbb67ae85, 0x3c6ef372, 0xa54ff53a, 0x510e527f, 0x9b05688c, 0x1f83d9ab, 0x5be0cd19⟩

/-- Message padding: a `0x80` byte, zero bytes up to 56 modulo 64, then the bit length as a
64-bit big-endian integer. -/
def sha256Pad (msg : Bytes) : Bytes :=
  let l := msg.length
  let z := (55 + 64 - l % 64) % 64
  let bits := (8 * l) % 2 ^ 64
  msg ++ [(0x80 : UInt8)] ++ List.replicate z (0 : UInt8) ++
    (List.range 8).map (fun i => UInt8.ofNat ((bits >>> (8 * (7 - i))) % 256))

/-- A big-endian 32-bit word from four bytes. -/
def beWord (b0 b1 b2 b3 : UInt8) : Nat :=
  b0.toNat * 2 ^ 24 + b1.toNat * 2 ^ 16 + b2.toNat * 2 ^ 8 + b3.toNat

/-- The big-endian words of a block. -/
def wordsOf : Bytes → List Nat
  | b0 :: b1 :: b2 :: b3 :: rest => beWord b0 b1 b2 b3 :: wordsOf rest
  | _ => []

/-- Extends the message schedule by `n` words. -/
def schedule : Nat → List Nat → List Nat
  | 0, w => w
  | n + 1, w =>
    let k := w.length
    let w15 := w.getD (k - 15) 0
    let w2 := w.getD (k - 2) 0
    let s0 := rotr32 w15 7 ^^^ rotr32 w15 18 ^^^ (w15 >>> 3)
    let s1 := rotr32 w2 17 ^^^ rotr32 w2 19 ^^^ (w2 >>> 10)
    schedule n (w ++ [(w.getD (k - 16) 0 + s0 + w.getD (k - 7) 0 + s1) % 2 ^ 32])

/-- One round of the compression function, for round constant `kw.1` and schedule word
`kw.2`. -/
def sha256Round (s : Sha256State) (kw : Nat × Nat) : Sha256State :=
  let s1 := rotr32 s.e 6 ^^^ rotr32 s.e 11 ^^^ rotr32 s.e 25
  let ch := (s.e &&& s.f) ^^^ ((s.e ^^^ (2 ^ 32 - 1)) &&& s.g)
  let t1 := (s.h + s1 + ch + kw.1 + kw.2) % 2 ^ 32
  let s0 := rotr32 s.a 2 ^^^ rotr32 s.a 13 ^^^ rotr32 s.a 22
  let maj := (s.a &&& s.b) ^^^ (s.a &&& s.c) ^^^ (s.b &&& s.c)
  let t2 := (s0 + maj) % 2 ^ 32
  ⟨(t1 + t2) % 2 ^ 32, s.a, s.b, s.c, (s.d + t1) % 2 ^ 32, s.e, s.f, s.g⟩

/-- The compression function on one 64-byte block. -/
def sha256Block (s : Sha256State) (block : Bytes) : Sha256State :=
  let w := schedule 48 (wordsOf block)
  let r := (sha256K.zip w).foldl sha256Round s
  ⟨(s.a + r.a) % 2 ^ 32, (s.b + r.b) % 2 ^ 32, (s.c + r.c) % 2 ^ 32, (s.d + r.d) % 2 ^ 32,
   (s.e + r.e) % 2 ^ 32, (s.f + r.f) % 2 ^ 32, (s.g + r.g) % 2 ^ 32, (s.h + r.h) % 2 ^ 32⟩

/-- Compresses the first `n` blocks of `bs`. -/
def sha256Blocks : Nat → Sha256State → Bytes → Sha256State
  | 0, s, _ => s
  | n + 1, s, bs => sha256Blocks n (sha256Block s (bs.take 64)) (bs.drop 64)

/-- The four bytes of a 32-bit word, big-endian. -/
def wordBytes (w : Nat) : Bytes :=
  [UInt8.ofNat (w >>> 24 % 256), UInt8.ofNat (w >>> 16 % 256), UInt8.ofNat (w >>> 8 % 256),
   UInt8.ofNat (w % 256)]

/-- The 32-byte SHA-256 digest of `msg`: what `hashWriter.Sum(nil)` returns once `msg` has
been written to `hashWriter := sha256.New()`. -/
def sha256Sum (msg : Bytes) : Bytes :=
  let p := sha256Pad msg
  let s := sha256Blocks (p.length / 64) sha256Init p
  wordBytes s.a ++ wordBytes s.b ++ wordBytes s.c ++ wordBytes s.d ++
    wordBytes s.e ++ wordBytes s.f ++ wordBytes s.g ++ wordBytes s.h

/-- A lower-case hexadecimal digit. -/
def hexDigit (n : Nat) : Char := "0123456789abcdef".toList.getD n '0'

/-- Models `hex.EncodeToString`: two lower-case digits per byte. -/
def hexEncodeToString (bs : Bytes) : String :=
  String.mk (bs.flatMap (fun b => [hexDigit (b.toNat / 16), hexDigit (b.toNat % 16)]))

/-- The true digest of a byte sequence, `hex(sha256(b))`. -/
def sha256Hex (msg : Bytes) : String := hexEncodeToString (sha256Sum msg)

/-! ## Errors, blobs, streams -/

/-- Go error values. `ErrHashNotFound` is the sentinel of `blob.go`; `EOF` and
`ErrShortWrite` are the sentinels of package `io`; `New msg` is a value made by
`errors.New(msg)` or `fmt.Errorf`. -/
inductive GoError where
  | ErrHashNotFound
  | EOF
  | ErrShortWrite
  | New (msg : String)
  deriving DecidableEq, Repr

/-- Metadata of a stored blob (`type Blob`). `Size` is an `int64` byte count, which a
count of bytes held in memory never overflows. -/
structure Blob where
  SHA256 : String
  Size : Nat
  ContentType : String
  deriving DecidableEq, Repr

/-- The zero value `Blob{}`. -/
def Blob.empty : Blob := ⟨"", 0, ""⟩

/-- The incoming stream `in.Data`, an `io.ReadCloser` owned by the caller: `reads` lists
what the successive `Read` calls still to come will return (the bytes placed in the buffer
and the error), and `closed` records whether `Close` was called. Once `reads` is used up,
`Read` returns `0, io.EOF`. -/
structure Source where
  reads : List (Bytes × Option GoError)
  closed : Bool
  deriving DecidableEq, Repr

/-- One `Read` call on the incoming stream. -/
def Source.Read (r : Source) : (Bytes × Option GoError) × Source :=
  match r.reads with
  | [] => (([], some GoError.EOF), r)
  | x :: rest => (x, { r with reads := rest })

/-- The `Close` method of the incoming stream. -/
def Source.Close (r : Source) : Source := { r with closed := true }

/-- A stream over in-memory bytes that never fails, such as
`ioutil.NopCloser(bytes.NewBuffer(b))`; `chunks` is how the bytes are split over the
`Read` calls. -/
def Source.ofChunks (chunks : List Bytes) : Source :=
  ⟨chunks.map (fun p => (p, none)), false⟩

/-- The asserted digest, the stream and the checksum of an upload (`type IncomingBlob`). -/
structure IncomingBlob where
  SHA256 : String
  Data : Source
  CRC32C : Nat

/-- An `io.WriteCloser` whose methods act on a state `σ`. `Write` returns `(n, err)`. -/
structure WriteCloser (σ : Type) where
  Write : Bytes → σ → (Nat × Option GoError) × σ
  Close : σ → Option GoError × σ

/-- An `io.ReadCloser` whose methods act on a state `σ`. `Read n` is a `Read` into a buffer
of length `n`; it returns the bytes placed in the buffer and the error. -/
structure ReadCloser (σ : Type) where
  Read : Nat → σ → (Bytes × Option GoError) × σ
  Close : σ → Option GoError × σ

/-- The `Storer` interface of `storer.go`, over a backend state `σ`. Each method returns
its Go results and the next state; a nil interface value is `none`. -/
structure Storer (σ : Type) where
  Upload : String → Nat → σ → (Option (WriteCloser σ) × Option GoError) × σ
  Download : String → σ → (Option (ReadCloser σ) × Option GoError) × σ
  Delete : String → σ → Option GoError × σ
  BuildURL : String → σ → (String × Option GoError) × σ

/-- The bundle `type Dependencies`. -/
structure Dependencies (σ : Type) where
  Storer : Blobs.Storer σ

/-- The content-type sniffer `checker.MagicNumberChecker` of the external package
`magic-number-checker`, taken as a parameter: `init` is the value built at the top of
`StreamingUpload` (with its five supported MIME types), `Write` and `Close` are its methods
on a state `τ`, and `MatchedMIME` reads the field of that name. -/
structure MagicNumberChecker (τ : Type) where
  init : τ
  Write : Bytes → τ → (Nat × Option GoError) × τ
  Close : τ → Option GoError × τ
  MatchedMIME : τ → String

/-- A sniffer that accepts every write in full and closes without error, as the
specification describes the sniffer: content outside the recognised set yields an
unknown content type, not an error. -/
def MagicNumberChecker.Reliable {τ : Type} (c : MagicNumberChecker τ) : Prop :=
  (∀ p t, (c.Write p t).1 = (p.length, none)) ∧ (∀ t, (c.Close t).1 = none)

/-- A sniffer that recognises nothing: it accepts every write and reports no MIME type. -/
def MagicNumberChecker.unknown : MagicNumberChecker Unit where
  init := ()
  Write := fun p t => ((p.length, none), t)
  Close := fun t => (none, t)
  MatchedMIME := fun _ => ""

/-! ## io.MultiWriter and io.Copy -/

/-- Models `(*multiWriter).Write`: `p` goes to each writer in turn; the first error, or a
short write, stops the loop. -/
def multiWrite {φ : Type} : List (Bytes → φ → (Nat × Option GoError) × φ) → Bytes → φ →
    (Nat × Option GoError) × φ
  | [], p, st => ((p.length, none), st)
  | w :: rest, p, st =>
    match w p st with
    | ((n, some err), st1) => ((n, some err), st1)
    | ((n, none), st1) =>
      if n ≠ p.length then ((n, some GoError.ErrShortWrite), st1)
      else multiWrite rest p st1

/-- Models the loop of `io.Copy(dst, src)` over the reads still to come from `src`, with
`written` bytes copied so far. Returns `(written, err)`, the reads left in `src` and the
state of `dst`. -/
def copyLoop {φ : Type} (dst : Bytes → φ → (Nat × Option GoError) × φ) :
    List (Bytes × Option GoError) → Nat → φ →
    (Nat × Option GoError) × List (Bytes × Option GoError) × φ
  | [], written, st => ((written, none), [], st)
  | (p, er) :: rest, written, st =>
    match (if p.length > 0 then dst p st else ((0, none), st)) with
    | ((nw, some ew), st1) => ((written + nw, some ew), rest, st1)
    | ((nw, none), st1) =>
      if p.length ≠ nw then ((written + nw, some GoError.ErrShortWrite), rest, st1)
      else
        match er with
        | some e => ((written + nw, if e = GoError.EOF then none else some e), rest, st1)
        | none => copyLoop dst rest (written + nw) st1

/-- Models `io.Copy(dst, src)`. -/
def ioCopy {φ : Type} (dst : Bytes → φ → (Nat × Option GoError) × φ) (src : Source) (st : φ) :
    (Nat × Option GoError) × Source × φ :=
  let r := copyLoop dst src.reads 0 st
  (r.1, { src with reads := r.2.1 }, r.2.2)

/-! ## blob.go -/

/-- What a call of `StreamingUpload` leaves behind: its two results, the state of the
backend, and the incoming stream. -/
structure Outcome (σ : Type) where
  blob : Blob
  err : Option GoError
  store : σ
  data : Source

/-- The three writers behind `io.MultiWriter(fileTypeWriter, hashWriter, storerWriter)`,
on the joint state of the sniffer, of the bytes written to `hashWriter` so far, and of the
backend. A `sha256` digest accepts every write. -/
def fanOut {σ τ : Type} (ftw : MagicNumberChecker τ) (storerWriter : WriteCloser σ) :
    List (Bytes → τ × Bytes × σ → (Nat × Option GoError) × (τ × Bytes × σ)) :=
  [ fun p st => let r := ftw.Write p st.1; (r.1, (r.2, st.2.1, st.2.2)),
    fun p st => ((p.length, none), (st.1, st.2.1 ++ p, st.2.2)),
    fun p st => let r := storerWriter.Write p st.2.2; (r.1, (st.1, st.2.1, r.2)) ]

/-- Models `StreamingUpload(ctx, d, in)`, started in backend state `s`. The deferred
`in.Data.Close()` runs on every return. -/
def StreamingUpload {σ τ : Type} (d : Dependencies σ) (ftw : MagicNumberChecker τ)
    (inp : IncomingBlob) (s : σ) : Outcome σ :=
  match d.Storer.Upload inp.SHA256 inp.CRC32C s with
  | ((_, some err), s1) => ⟨Blob.empty, some err, s1, inp.Data.Close⟩
  | ((none, none), s1) => ⟨Blob.empty, none, s1, inp.Data.Close⟩
  | ((some storerWriter, none), s1) =>
    match ioCopy (multiWrite (fanOut ftw storerWriter)) inp.Data (ftw.init, [], s1) with
    | ((_, some err), src, (_, _, s2)) => ⟨Blob.empty, some err, s2, src.Close⟩
    | ((size, none), src, (t, hashed, s2)) =>
      match ftw.Close t with
      | (some err, _) => ⟨Blob.empty, some err, s2, src.Close⟩
      | (none, t1) =>
        match storerWriter.Close s2 with
        | (some err, s3) => ⟨Blob.empty, some err, s3, src.Close⟩
        | (none, s3) =>
          let sum := hexEncodeToString (sha256Sum hashed)
          if sum ≠ inp.SHA256 then
            match d.Storer.Delete inp.SHA256 s3 with
            | (some err, s4) => ⟨Blob.empty, some err, s4, src.Close⟩
            | (none, s4) =>
              ⟨Blob.empty, some (GoError.New "supplied hash did not match file hash"), s4,
                src.Close⟩
          else ⟨⟨sum, size, ftw.MatchedMIME t1⟩, none, s3, src.Close⟩

/-! ## memstore.go -/

/-- The in-memory blob `type Memblob`. The `*bytes.Buffer` field `buf` is given by its
unread bytes. -/
structure Memblob where
  ID : String
  Contents : Bytes
  buf : Bytes
  deriving DecidableEq, Repr

/-- Models `NewMemblob(id, in)`. -/
def NewMemblob (id : String) (inp : Bytes) : Memblob := ⟨id, inp, inp⟩

/-- Models `(*Memblob).Write`: `bytes.Buffer.Write` appends `p` and returns `len(p), nil`;
then `p` is appended to `Contents`. -/
def Memblob.Write (m : Memblob) (p : Bytes) : (Nat × Option GoError) × Memblob :=
  ((p.length, none), { m with buf := m.buf ++ p, Contents := m.Contents ++ p })

/-- Models `(*Memblob).Read` into a buffer of length `n`, which is `bytes.Buffer.Read`: an
empty buffer returns `0, io.EOF` (or `0, nil` when `n = 0`), otherwise the first `n` unread
bytes are consumed. -/
def Memblob.Read (m : Memblob) (n : Nat) : (Bytes × Option GoError) × Memblob :=
  if m.buf = [] then
    (if n = 0 then (([], none), m) else (([], some GoError.EOF), m))
  else ((m.buf.take n, none), { m with buf := m.buf.drop n })

/-- Models `(*Memblob).Close`: `buf` becomes a fresh buffer over `Contents`. -/
def Memblob.Close (m : Memblob) : Option GoError × Memblob :=
  (none, { m with buf := m.Contents })

/-- The state behind a `*Memstore`: `heap` holds the `Memblob` objects by address (a
`*Memblob` is an index into it), and `blob` is the memdb table of that name, as the entries
of its unique index `id`: index key and pointer to the record. -/
structure Memstore where
  heap : List Memblob
  blob : List (String × Nat)
  deriving DecidableEq, Repr

/-- Models `NewMemstore()`: an empty database. -/
def NewMemstore : Memstore := ⟨[], []⟩

/-- The lower-case mappings of `unicode.CaseRanges` above ASCII, which are the simple
lower-case mappings of the Unicode Character Database (version 14.0; the Go release fixes
the version of its tables, and versions differ only in letters added later). An entry
`(lo, hi, stride, to)` maps the code points `lo`, `lo + stride`, ... up to `hi` onto `to`,
`to + stride`, ...; every other code point has no mapping. -/
def lowerCaseRanges : List (Nat × Nat × Nat × Nat) := [
  (0x00C0, 0x00D6, 1, 0x00E0), (0x00D8, 0x00DE, 1, 0x00F8), (0x0100, 0x012E, 2, 0x0101),
  (0x0130, 0x0130, 1, 0x0069), (0x0132, 0x0136, 2, 0x0133), (0x0139, 0x0147, 2, 0x013A),
  (0x014A, 0x0176, 2, 0x014B), (0x0178, 0x0178, 1, 0x00FF), (0x0179, 0x017D, 2, 0x017A),
  (0x0181, 0x0181, 1, 0x0253), (0x0182, 0x0184, 2, 0x0183), (0x0186, 0x0186, 1, 0x0254),
  (0x0187, 0x0187, 1, 0x0188), (0x0189, 0x018A, 1, 0x0256), (0x018B, 0x018B, 1, 0x018C),
  (0x018E, 0x018E, 1, 0x01DD), (0x018F, 0x018F, 1, 0x0259), (0x0190, 0x0190, 1, 0x025B),
  (0x0191, 0x0191, 1, 0x0192), (0x0193, 0x0193, 1, 0x0260), (0x0194, 0x0194, 1, 0x0263),
  (0x0196, 0x0196, 1, 0x0269), (0x0197, 0x0197, 1, 0x0268), (0x0198, 0x0198, 1, 0x0199),
  (0x019C, 0x019C, 1, 0x026F), (0x019D, 0x019D, 1, 0x0272), (0x019F, 0x019F, 1, 0x0275),
  (0x01A0, 0x01A4, 2, 0x01A1), (0x01A6, 0x01A6, 1, 0x0280), (0x01A7, 0x01A7, 1, 0x01A8),
  (0x01A9, 0x01A9, 1, 0x0283), (0x01AC, 0x01AC, 1, 0x01AD), (0x01AE, 0x01AE, 1, 0x0288),
  (0x01AF, 0x01AF, 1, 0x01B0), (0x01B1, 0x01B2, 1, 0x028A), (0x01B3, 0x01B5, 2, 0x01B4),
  (0x01B7, 0x01B7, 1, 0x0292), (0x01B8, 0x01B8, 1, 0x01B9), (0x01BC, 0x01BC, 1, 0x01BD),
  (0x01C4, 0x01C4, 1, 0x01C6), (0x01C5, 0x01C5, 1, 0x01C6), (0x01C7, 0x01C7, 1, 0x01C9),
  (0x01C8, 0x01C8, 1, 0x01C9), (0x01CA, 0x01CA, 1, 0x01CC), (0x01CB, 0x01DB, 2, 0x01CC),
  (0x01DE, 0x01EE, 2, 0x01DF), (0x01F1, 0x01F1, 1, 0x01F3), (0x01F2, 0x01F4, 2, 0x01F3),
  (0x01F6, 0x01F6, 1, 0x0195), (0x01F7, 0x01F7, 1, 0x01BF), (0x01F8, 0x021E, 2, 0x01F9),
  (0x0220, 0x0220, 1, 0x019E), (0x0222, 0x0232, 2, 0x0223), (0x023A, 0x023A, 1, 0x2C65),
  (0x023B, 0x023B, 1, 0x023C), (0x023D, 0x023D, 1, 0x019A), (0x023E, 0x023E, 1, 0x2C66),
  (0x0241, 0x0241, 1, 0x0242), (0x0243, 0x0243, 1, 0x0180), (0x0244, 0x0244, 1, 0x0289),
  (0x0245, 0x0245, 1, 0x028C), (0x0246, 0x024E, 2, 0x0247), (0x0370, 0x0372, 2, 0x0371),
  (0x0376, 0x0376, 1, 0x0377), (0x037F, 0x037F, 1, 0x03F3), (0x0386, 0x0386, 1, 0x03AC),
  (0x0388, 0x038A, 1, 0x03AD), (0x038C, 0x038C, 1, 0x03CC), (0x038E, 0x038F, 1, 0x03CD),
  (0x0391, 0x03A1, 1, 0x03B1), (0x03A3, 0x03AB, 1, 0x03C3), (0x03CF, 0x03CF, 1, 0x03D7),
  (0x03D8, 0x03EE, 2, 0x03D9), (0x03F4, 0x03F4, 1, 0x03B8), (0x03F7, 0x03F7, 1, 0x03F8),
  (0x03F9, 0x03F9, 1, 0x03F2), (0x03FA, 0x03FA, 1, 0x03FB), (0x03FD, 0x03FF, 1, 0x037B),
  (0x0400, 0x040F, 1, 0x0450), (0x0410, 0x042F, 1, 0x0430), (0x0460, 0x0480, 2, 0x0461),
  (0x048A, 0x04BE, 2, 0x048B), (0x04C0, 0x04C0, 1, 0x04CF), (0x04C1, 0x04CD, 2, 0x04C2),
  (0x04D0, 0x052E, 2, 0x04D1), (0x0531, 0x0556, 1, 0x0561), (0x10A0, 0x10C5, 1, 0x2D00),
  (0x10C7, 0x10C7, 1, 0x2D27), (0x10CD, 0x10CD, 1, 0x2D2D), (0x13A0, 0x13EF, 1, 0xAB70),
  (0x13F0, 0x13F5, 1, 0x13F8), (0x1C90, 0x1CBA, 1, 0x10D0), (0x1CBD, 0x1CBF, 1, 0x10FD),
  (0x1E00, 0x1E94, 2, 0x1E01), (0x1E9E, 0x1E9E, 1, 0x00DF), (0x1EA0, 0x1EFE, 2, 0x1EA1),
  (0x1F08, 0x1F0F, 1, 0x1F00), (0x1F18, 0x1F1D, 1, 0x1F10), (0x1F28, 0x1F2F, 1, 0x1F20),
  (0x1F38, 0x1F3F, 1, 0x1F30), (0x1F48, 0x1F4D, 1, 0x1F40), (0x1F59, 0x1F5F, 2, 0x1F51),
  (0x1F68, 0x1F6F, 1, 0x1F60), (0x1F88, 0x1F8F, 1, 0x1F80), (0x1F98, 0x1F9F, 1, 0x1F90),
  (0x1FA8, 0x1FAF, 1, 0x1FA0), (0x1FB8, 0x1FB9, 1, 0x1FB0), (0x1FBA, 0x1FBB, 1, 0x1F70),
  (0x1FBC, 0x1FBC, 1, 0x1FB3), (0x1FC8, 0x1FCB, 1, 0x1F72), (0x1FCC, 0x1FCC, 1, 0x1FC3),
  (0x1FD8, 0x1FD9, 1, 0x1FD0), (0x1FDA, 0x1FDB, 1, 0x1F76), (0x1FE8, 0x1FE9, 1, 0x1FE0),
  (0x1FEA, 0x1FEB, 1, 0x1F7A), (0x1FEC, 0x1FEC, 1, 0x1FE5), (0x1FF8, 0x1FF9, 1, 0x1F78),
  (0x1FFA, 0x1FFB, 1, 0x1F7C), (0x1FFC, 0x1FFC, 1, 0x1FF3), (0x2126, 0x2126, 1, 0x03C9),
  (0x212A, 0x212A, 1, 0x006B), (0x212B, 0x212B, 1, 0x00E5), (0x2132, 0x2132, 1, 0x214E),
  (0x2160, 0x216F, 1, 0x2170), (0x2183, 0x2183, 1, 0x2184), (0x24B6, 0x24CF, 1, 0x24D0),
  (0x2C00, 0x2C2F, 1, 0x2C30), (0x2C60, 0x2C60, 1, 0x2C61), (0x2C62, 0x2C62, 1, 0x026B),
  (0x2C63, 0x2C63, 1, 0x1D7D), (0x2C64, 0x2C64, 1, 0x027D), (0x2C67, 0x2C6B, 2, 0x2C68),
  (0x2C6D, 0x2C6D, 1, 0x0251), (0x2C6E, 0x2C6E, 1, 0x0271), (0x2C6F, 0x2C6F, 1, 0x0250),
  (0x2C70, 0x2C70, 1, 0x0252), (0x2C72, 0x2C72, 1, 0x2C73), (0x2C75, 0x2C75, 1, 0x2C76),
  (0x2C7E, 0x2C7F, 1, 0x023F), (0x2C80, 0x2CE2, 2, 0x2C81), (0x2CEB, 0x2CED, 2, 0x2CEC),
  (0x2CF2, 0x2CF2, 1, 0x2CF3), (0xA640, 0xA66C, 2, 0xA641), (0xA680, 0xA69A, 2, 0xA681),
  (0xA722, 0xA72E, 2, 0xA723), (0xA732, 0xA76E, 2, 0xA733), (0xA779, 0xA77B, 2, 0xA77A),
  (0xA77D, 0xA77D, 1, 0x1D79), (0xA77E, 0xA786, 2, 0xA77F), (0xA78B, 0xA78B, 1, 0xA78C),
  (0xA78D, 0xA78D, 1, 0x0265), (0xA790, 0xA792, 2, 0xA791), (0xA796, 0xA7A8, 2, 0xA797),
  (0xA7AA, 0xA7AA, 1, 0x0266), (0xA7AB, 0xA7AB, 1, 0x025C), (0xA7AC, 0xA7AC, 1, 0x0261),
  (0xA7AD, 0xA7AD, 1, 0x026C), (0xA7AE, 0xA7AE, 1, 0x026A), (0xA7B0, 0xA7B0, 1, 0x029E),
  (0xA7B1, 0xA7B1, 1, 0x0287), (0xA7B2, 0xA7B2, 1, 0x029D), (0xA7B3, 0xA7B3, 1, 0xAB53),
  (0xA7B4, 0xA7C2, 2, 0xA7B5), (0xA7C4, 0xA7C4, 1, 0xA794), (0xA7C5, 0xA7C5, 1, 0x0282),
  (0xA7C6, 0xA7C6, 1, 0x1D8E), (0xA7C7, 0xA7C9, 2, 0xA7C8), (0xA7D0, 0xA7D0, 1, 0xA7D1),
  (0xA7D6, 0xA7D8, 2, 0xA7D7), (0xA7F5, 0xA7F5, 1, 0xA7F6), (0xFF21, 0xFF3A, 1, 0xFF41),
  (0x10400, 0x10427, 1, 0x10428), (0x104B0, 0x104D3, 1, 0x104D8), (0x10570, 0x1057A, 1, 0x10597),
  (0x1057C, 0x1058A, 1, 0x105A3), (0x1058C, 0x10592, 1, 0x105B3), (0x10594, 0x10595, 1, 0x105BB),
  (0x10C80, 0x10CB2, 1, 0x10CC0), (0x118A0, 0x118BF, 1, 0x118C0), (0x16E40, 0x16E5F, 1, 0x16E60),
  (0x1E900, 0x1E921, 1, 0x1E922)]

/-- Models `unicode.ToLower` on a code point above ASCII: the mapping of the table, or the
code point itself when the table has none. -/
def unicodeToLower (r : Nat) : Nat :=
  match lowerCaseRanges.find? (fun e => e.1 ≤ r && r ≤ e.2.1 && (r - e.1) % e.2.2.1 == 0) with
  | some e => e.2.2.2 + (r - e.1)
  | none => r

/-- Models `unicode.ToLower` on a rune: `A` to `Z` go to `a` to `z`, other ASCII runes stay,
and the runes above ASCII follow the table. -/
def runeToLower (c : Char) : Char :=
  if c.toNat < 128 then c.toLower else Char.ofNat (unicodeToLower c.toNat)

/-- Models `strings.ToLower`, the folding done by the index: every rune is mapped by
`unicode.ToLower`. -/
def toLower (s : String) : String := String.mk (s.data.map runeToLower)

/-- The key of the index `id`, `StringFieldIndex` with `Lowercase: true`: the lower-cased
string (memdb also appends a terminating NUL, which changes no comparison of keys). -/
def indexKey (s : String) : String := toLower s

/-- The object a `*Memblob` points to. Pointers are made by `Memstore.alloc` only; an
address never allocated reads as an object without ID. -/
def Memstore.deref (m : Memstore) (a : Nat) : Memblob := m.heap.getD a (NewMemblob "" [])

/-- Stores `f` at address `a`. -/
def Memstore.assign (m : Memstore) (a : Nat) (f : Memblob) : Memstore :=
  { m with heap := m.heap.set a f }

/-- Allocates `f` and returns the pointer to it. -/
def Memstore.alloc (m : Memstore) (f : Memblob) : Nat × Memstore :=
  (m.heap.length, { m with heap := m.heap ++ [f] })

/-- Models `StringFieldIndex.FromObject` of memdb on the field `ID`: an empty field has no
index value. -/
def fromObject (o : Memblob) : Option String :=
  if o.ID = "" then none else some (indexKey o.ID)

/-- Models `txn.First("blob", "id", arg)`: the exact lookup in the unique index. -/
def Txn.First (m : Memstore) (arg : String) : Option Nat := m.blob.lookup (indexKey arg)

/-- Models `txn.Insert("blob", f)` of memdb for the pointer `a`: the object needs a
primary index value, and it takes the place of an entry with the same key. -/
def Txn.Insert (m : Memstore) (a : Nat) : Except GoError Memstore :=
  match fromObject (m.deref a) with
  | none => .error (GoError.New "object missing primary index")
  | some k => .ok { m with blob := (k, a) :: m.blob.filter (fun e => e.1 != k) }

/-- Models `txn.Delete("blob", exists)` of memdb for the pointer `a`: the entry under the
object's primary index value is removed; memdb reports `not found` when there is none. -/
def Txn.Delete (m : Memstore) (a : Nat) : Except GoError Memstore :=
  match fromObject (m.deref a) with
  | none => .error (GoError.New "object missing primary index")
  | some k =>
    match m.blob.lookup k with
    | none => .error (GoError.New "not found")
    | some _ => .ok { m with blob := m.blob.filter (fun e => e.1 != k) }

/-- The `io.WriteCloser` that a `*Memblob` at address `a` is. -/
def Memblob.sink (a : Nat) : WriteCloser Memstore where
  Write := fun p m => let r := (m.deref a).Write p; (r.1, m.assign a r.2)
  Close := fun m => let r := (m.deref a).Close; (r.1, m.assign a r.2)

/-- The `io.ReadCloser` that a `*Memblob` at address `a` is. -/
def Memblob.reader (a : Nat) : ReadCloser Memstore where
  Read := fun n m => let r := (m.deref a).Read n; (r.1, m.assign a r.2)
  Close := fun m => let r := (m.deref a).Close; (r.1, m.assign a r.2)

/-- Models `(*Memstore).Upload`. A transaction that returns before `txn.Commit()` is
aborted by the deferred `txn.Abort()` and leaves the store as it was. -/
def Memstore.Upload (sha256 : String) (_crc32c : Nat) (m : Memstore) :
    (Option (WriteCloser Memstore) × Option GoError) × Memstore :=
  match Txn.First m sha256 with
  | some _ => ((none, none), m)
  | none =>
    let f := m.alloc (NewMemblob sha256 [])
    match Txn.Insert f.2 f.1 with
    | .error err => ((none, some err), m)
    | .ok m1 => ((some (Memblob.sink f.1), none), m1)

/-- Models `(*Memstore).Download`. -/
def Memstore.Download (hash : String) (m : Memstore) :
    (Option (ReadCloser Memstore) × Option GoError) × Memstore :=
  match Txn.First m hash with
  | none => ((none, some GoError.ErrHashNotFound), m)
  | some a => ((some (Memblob.reader a), none), m)

/-- Models `(*Memstore).Delete`. -/
def Memstore.Delete (hash : String) (m : Memstore) : Option GoError × Memstore :=
  match Txn.First m hash with
  | none => (none, m)
  | some a =>
    match Txn.Delete m a with
    | .error err => (some err, m)
    | .ok m1 => (none, m1)

/-- Models `(*Memstore).BuildURL`. -/
def Memstore.BuildURL (_hash : String) (m : Memstore) : (String × Option GoError) × Memstore :=
  (("", none), m)

/-- A `*Memstore` as a `Storer`. -/
def Memstore.storer : Storer Memstore where
  Upload := Memstore.Upload
  Download := Memstore.Download
  Delete := Memstore.Delete
  BuildURL := Memstore.BuildURL

/-- The dependencies of the tests: `Dependencies` with a `Memstore` as `Storer`. -/
def memDeps : Dependencies Memstore := ⟨Memstore.storer⟩

/-- A record exists under `d`: the index holds an entry whose key is the key of `d`. -/
def Memstore.Holds (m : Memstore) (d : String) : Prop := ∃ e ∈ m.blob, e.1 = indexKey d

instance (m : Memstore) (d : String) : Decidable (m.Holds d) := by
  unfold Memstore.Holds
  infer_instance

/-- The representation invariant of a `Memstore`: every index entry points to an allocated
object that has an ID, and its key is the key of that ID. -/
def Memstore.WF (m : Memstore) : Prop :=
  ∀ k a, (k, a) ∈ m.blob → a < m.heap.length ∧ fromObject (m.deref a) = some k

/-- The stores a program can reach: from `NewMemstore()` by the methods of `Memstore` and by
the methods of the sinks and readers it hands out (`Download` and `BuildURL` leave the store
as it is; closing a reader is closing the `Memblob`, as for a sink). -/
inductive Memstore.Reachable : Memstore → Prop where
  | init : Memstore.Reachable NewMemstore
  | upload (d : String) (crc : Nat) (s : Memstore) :
      Memstore.Reachable s → Memstore.Reachable (Memstore.Upload d crc s).2
  | delete (d : String) (s : Memstore) :
      Memstore.Reachable s → Memstore.Reachable (Memstore.Delete d s).2
  | write (a : Nat) (p : Bytes) (s : Memstore) :
      Memstore.Reachable s → Memstore.Reachable ((Memblob.sink a).Write p s).2
  | close (a : Nat) (s : Memstore) :
      Memstore.Reachable s → Memstore.Reachable ((Memblob.sink a).Close s).2
  | read (a n : Nat) (s : Memstore) :
      Memstore.Reachable s → Memstore.Reachable ((Memblob.reader a).Read n s).2

/-- Reads `r` to the end of the stream the way `io.Copy(&buf, r)` does, through a buffer of
32 KiB, for at most `fuel` calls of `Read`; `acc` holds the bytes read so far. Returns the
bytes, the error of `io.Copy`, and the state. -/
def readAll {σ : Type} (r : ReadCloser σ) : Nat → σ → Bytes → Option ((Bytes × Option GoError) × σ)
  | 0, _, _ => none
  | fuel + 1, s, acc =>
    match r.Read 32768 s with
    | ((p, none), s1) => readAll r fuel s1 (acc ++ p)
    | ((p, some e), s1) => some ((acc ++ p, if e = GoError.EOF then none else some e), s1)

/-! ## Reference semantics used in the statements -/

/-- The chunks that `io.Copy` takes from a stream: what each `Read` hands out, up to and
including the first `Read` that returns an error (`io.EOF` or another). -/
def copied : List (Bytes × Option GoError) → List Bytes
  | [] => []
  | (p, none) :: rest => p :: copied rest
  | (p, some _) :: _ => [p]

/-- The backend state after the chunks `ps` were written to the sink `w` one after the
other, in the way `io.Copy` does: an empty chunk is not written. -/
def writeAll {σ : Type} (w : WriteCloser σ) : List Bytes → σ → σ
  | [], s => s
  | p :: ps, s => writeAll w ps (if p = [] then s else (w.Write p s).2)

/-- The state of the sniffer after the same chunks were written to it. -/
def sniffAll {τ : Type} (c : MagicNumberChecker τ) : List Bytes → τ → τ
  | [], t => t
  | p :: ps, t => sniffAll c ps (if p = [] then t else (c.Write p t).2)

/-- The state after `Write(p)` was called on the sink `w` for each `p` of `ps` in turn. -/
def writeEach {σ : Type} (w : WriteCloser σ) (ps : List Bytes) (s : σ) : σ :=
  ps.foldl (fun st p => (w.Write p st).2) s

/-- The digest of the bytes `1, 2, 3`. -/
def sampleDigest : String := "039058c6f2c0cb492c533b0a4d14ef77cc0f78abccced5287d84a1a2011cfb81"

/-- The store that holds the bytes `1, 2, 3` under their digest and nothing else. -/
def sampleStore : Memstore := ⟨[⟨sampleDigest, [1, 2, 3], [1, 2, 3]⟩], [(sampleDigest, 0)]⟩

/-! ## Further reference semantics and sample values -/

/-- What is left of a stream once it was read up to and including the first `Read` that
returned an error (`io.EOF` or another): nothing, for a stream that ends there. -/
def restAfter : List (Bytes × Option GoError) → List (Bytes × Option GoError)
  | [] => []
  | (_, none) :: rest => restAfter rest
  | (_, some _) :: rest => rest

/-- A stream that does not fail: no `Read` returns an error other than `io.EOF`. -/
def Source.NoFail (src : Source) : Prop :=
  ∀ x ∈ src.reads, x.2 = none ∨ x.2 = some GoError.EOF

/-- Every record of the index holds contents whose digest is its ID, under the key of
that ID. -/
def Memstore.ContentAddressed (m : Memstore) : Prop :=
  ∀ k a, (k, a) ∈ m.blob →
    sha256Hex (m.deref a).Contents = (m.deref a).ID ∧ indexKey (m.deref a).ID = k

/-- The stores reached from `NewMemstore()` by calls of `StreamingUpload` whose sniffer and
whose incoming stream do not fail, and by calls of `Delete`. -/
inductive Memstore.Ingested : Memstore → Prop where
  | init : Memstore.Ingested NewMemstore
  | upload {τ : Type} (ftw : MagicNumberChecker τ) (inp : IncomingBlob) (s : Memstore) :
      ftw.Reliable → inp.Data.NoFail → Memstore.Ingested s →
      Memstore.Ingested (StreamingUpload memDeps ftw inp s).store
  | delete (d : String) (s : Memstore) :
      Memstore.Ingested s → Memstore.Ingested (Memstore.Delete d s).2

/-- A backend that stores like a `Memstore` and whose `Delete` always fails. -/
def brokenDeleteStorer : Storer Memstore :=
  { Memstore.storer with Delete := fun _ m => (some (GoError.New "delete failed"), m) }

/-- A stream that hands out the byte `1` and then fails with a read error. -/
def failingSource : Source :=
  ⟨[([1], none), ([], some (GoError.New "read failed"))], false⟩

/-- The digest of the bytes `1, 2, 3` in upper-case letters. -/
def sampleDigestUpper : String :=
  "039058C6F2C0CB492C533B0A4D14EF77CC0F78ABCCCED5287D84A1A2011CFB81"

/-! ## Lemmas on the index and the heap -/
/-- A digest is never the empty string. -/
theorem sha256Hex_ne_empty (msg : Bytes) : sha256Hex msg ≠ "" := by
  intro h
  have h2 := congrArg String.data h
  simp [sha256Hex, hexEncodeToString, sha256Sum, wordBytes] at h2

theorem lookup_cons_self (k : String) (a : Nat) (t : List (String × Nat)) :
    ((k, a) :: t).lookup k = some a := by
  simp [List.lookup]

theorem lookup_cons_ne (k k1 : String) (a : Nat) (t : List (String × Nat)) (h : k ≠ k1) :
    ((k1, a) :: t).lookup k = t.lookup k := by
  have h2 : (k == k1) = false := by simpa using h
  rw [List.lookup, h2]

theorem filter_cons_self (k : String) (a : Nat) (t : List (String × Nat)) :
    ((k, a) :: t).filter (fun e => e.1 != k) = t.filter (fun e => e.1 != k) := by
  rw [List.filter_cons]; simp

theorem filter_cons_ne (k k1 : String) (a : Nat) (t : List (String × Nat)) (h : k ≠ k1) :
    ((k1, a) :: t).filter (fun e => e.1 != k) = (k1, a) :: t.filter (fun e => e.1 != k) := by
  rw [List.filter_cons]
  have : k1 ≠ k := fun h3 => h h3.symm
  simp [this]

theorem lookup_filter_ne (k : String) (t : List (String × Nat)) :
    (t.filter (fun e => e.1 != k)).lookup k = none := by
  induction t with
  | nil => rfl
  | cons e t ih =>
    obtain ⟨k1, a1⟩ := e
    by_cases h : k = k1
    · subst h; rw [filter_cons_self]; exact ih
    · rw [filter_cons_ne k k1 a1 t h, lookup_cons_ne k k1 a1 _ h]; exact ih

theorem filter_of_lookup_none (k : String) (t : List (String × Nat)) (h : t.lookup k = none) :
    t.filter (fun e => e.1 != k) = t := by
  induction t with
  | nil => rfl
  | cons e t ih =>
    obtain ⟨k1, a1⟩ := e
    by_cases h1 : k = k1
    · subst h1; rw [lookup_cons_self] at h; exact absurd h (by simp)
    · rw [lookup_cons_ne k k1 a1 t h1] at h
      rw [filter_cons_ne k k1 a1 t h1, ih h]

theorem lookup_none_iff_not_mem (k : String) (t : List (String × Nat)) :
    t.lookup k = none ↔ ∀ a, (k, a) ∉ t := by
  induction t with
  | nil => exact ⟨fun _ a h => (by cases h), fun _ => rfl⟩
  | cons e t ih =>
    obtain ⟨k1, a1⟩ := e
    by_cases h1 : k = k1
    · subst h1
      rw [lookup_cons_self]
      constructor
      · intro h; exact absurd h (by simp)
      · intro h; exact absurd (List.mem_cons_self _ _) (h a1)
    · rw [lookup_cons_ne k k1 a1 t h1, ih]
      constructor
      · intro h a hm
        rcases List.mem_cons.1 hm with h2 | h2
        · exact h1 (by injection h2)
        · exact h a h2
      · intro h a hm
        exact h a (List.mem_cons_of_mem _ hm)

theorem lookup_some_mem (k : String) (t : List (String × Nat)) (a : Nat)
    (h : t.lookup k = some a) : (k, a) ∈ t := by
  induction t with
  | nil => cases h
  | cons e t ih =>
    obtain ⟨k1, a1⟩ := e
    by_cases h1 : k = k1
    · subst h1
      rw [lookup_cons_self] at h
      injection h with h; subst h
      exact List.mem_cons_self _ _
    · rw [lookup_cons_ne k k1 a1 t h1] at h
      exact List.mem_cons_of_mem _ (ih h)

theorem First_eq_none_iff (m : Memstore) (d : String) :
    Txn.First m d = none ↔ ¬ m.Holds d := by
  unfold Txn.First Memstore.Holds
  rw [lookup_none_iff_not_mem]
  constructor
  · rintro h ⟨⟨k, a⟩, hm, hk⟩
    simp only at hk
    subst hk
    exact h a hm
  · intro h a hm
    exact h ⟨(indexKey d, a), hm, rfl⟩

theorem deref_assign_same (m : Memstore) (a : Nat) (f : Memblob) (h : a < m.heap.length) :
    (m.assign a f).deref a = f := by
  simp [Memstore.assign, Memstore.deref, List.getD, h]

theorem assign_assign (m : Memstore) (a : Nat) (f g : Memblob) :
    (m.assign a f).assign a g = m.assign a g := by
  simp [Memstore.assign]

theorem assign_deref_self (m : Memstore) (a : Nat) (h : a < m.heap.length) :
    m.assign a (m.deref a) = m := by
  cases m with
  | mk heap blob =>
    simp only [Memstore.assign, Memstore.deref, List.getD] at *
    congr 1
    apply List.ext_getElem
    · simp
    · intro i h1 h2
      by_cases hi : a = i
      · subst hi; simp [h]
      · simp [List.getElem_set, hi]

/-! ## Lemmas on io.MultiWriter, io.Copy and StreamingUpload -/

theorem multiWrite_fanOut_ok {σ τ : Type} (ftw : MagicNumberChecker τ) (w : WriteCloser σ)
    (p : Bytes) (t : τ) (h : Bytes) (s : σ) (nw : Nat) (st1 : τ × Bytes × σ)
    (hw : multiWrite (fanOut ftw w) p (t, h, s) = ((nw, none), st1)) :
    nw = p.length ∧ st1 = ((ftw.Write p t).2, h ++ p, (w.Write p s).2) := by
  rcases hf : ftw.Write p t with ⟨⟨n1, e1⟩, t1⟩
  rcases hs : w.Write p s with ⟨⟨n3, e3⟩, s3⟩
  cases e1 with
  | some e => simp [multiWrite, fanOut, hf] at hw
  | none =>
    by_cases h1 : n1 = p.length
    · cases e3 with
      | some e => simp [multiWrite, fanOut, hf, hs, h1] at hw
      | none =>
        by_cases h3 : n3 = p.length
        · simp [multiWrite, fanOut, hf, hs, h1, h3] at hw
          obtain ⟨hn, hst⟩ := hw
          exact ⟨hn.symm, hst.symm⟩
        · simp [multiWrite, fanOut, hf, hs, h1, h3] at hw
    · simp [multiWrite, fanOut, hf, h1] at hw

theorem multiWrite_fanOut_reliable {σ τ : Type} (ftw : MagicNumberChecker τ) (w : WriteCloser σ)
    (hftw : ftw.Reliable) (hw : ∀ p s, (w.Write p s).1 = (p.length, none))
    (p : Bytes) (t : τ) (h : Bytes) (s : σ) :
    multiWrite (fanOut ftw w) p (t, h, s) =
      ((p.length, none), ((ftw.Write p t).2, h ++ p, (w.Write p s).2)) := by
  have h1 := hftw.1 p t
  have h2 := hw p s
  rcases hf : ftw.Write p t with ⟨⟨n1, e1⟩, t1⟩
  rcases hs : w.Write p s with ⟨⟨n3, e3⟩, s3⟩
  rw [hf] at h1; rw [hs] at h2
  simp only [Prod.mk.injEq] at h1 h2
  obtain ⟨rfl, rfl⟩ := h1
  obtain ⟨rfl, rfl⟩ := h2
  simp [multiWrite, fanOut, hf, hs]

/-- When the copy into the fan-out returns without error, the hash writer has received
exactly the chunks the stream handed out, and so has the sink. -/
theorem copyLoop_ok {σ τ : Type} (ftw : MagicNumberChecker τ) (w : WriteCloser σ)
    (reads : List (Bytes × Option GoError)) :
    ∀ (n : Nat) (t : τ) (h : Bytes) (s : σ) (n2 : Nat)
      (rest : List (Bytes × Option GoError)) (st2 : τ × Bytes × σ),
      copyLoop (multiWrite (fanOut ftw w)) reads n (t, h, s) = ((n2, none), rest, st2) →
      n2 = n + (copied reads).flatten.length ∧
      st2 = (sniffAll ftw (copied reads) t, h ++ (copied reads).flatten,
        writeAll w (copied reads) s) := by
  induction reads with
  | nil =>
    intro n t h s n2 rest st2 hc
    simp [copyLoop] at hc
    simp [copied, sniffAll, writeAll, hc.1.symm, hc.2.2.symm]
  | cons x reads ih =>
    obtain ⟨p, er⟩ := x
    intro n t h s n2 rest st2 hc
    by_cases hp : p = []
    · subst hp
      cases er with
      | some e =>
        simp [copyLoop] at hc
        simp [copied, sniffAll, writeAll, hc.1.1.symm, hc.2.2.symm]
      | none =>
        simp [copyLoop] at hc
        have := ih n t h s n2 rest st2 hc
        simpa [copied, sniffAll, writeAll] using this
    · have hlen : p.length > 0 := List.length_pos.2 hp
      rcases hm : multiWrite (fanOut ftw w) p (t, h, s) with ⟨⟨nw, ew⟩, st1⟩
      cases ew with
      | some e => simp [copyLoop, hlen, hm] at hc
      | none =>
        obtain ⟨hnw, hst1⟩ := multiWrite_fanOut_ok ftw w p t h s nw st1 hm
        subst hnw
        cases er with
        | some e =>
          simp [copyLoop, hlen, hm] at hc
          simp [copied, sniffAll, writeAll, hp, hc.1.1.symm, hc.2.2.symm, hst1]
        | none =>
          simp [copyLoop, hlen, hm, hst1] at hc
          have := ih _ _ _ _ n2 rest st2 hc
          simpa [copied, sniffAll, writeAll, hp, Nat.add_assoc] using this

/-- A stream that does not fail is copied in full when neither the sniffer nor the sink
refuses a write. -/
theorem copyLoop_reliable {σ τ : Type} (ftw : MagicNumberChecker τ) (w : WriteCloser σ)
    (hftw : ftw.Reliable) (hw : ∀ p s, (w.Write p s).1 = (p.length, none))
    (chunks : List Bytes) :
    ∀ (n : Nat) (t : τ) (h : Bytes) (s : σ),
      copyLoop (multiWrite (fanOut ftw w)) (chunks.map (fun p => (p, none))) n (t, h, s) =
        ((n + chunks.flatten.length, none), [],
          (sniffAll ftw chunks t, h ++ chunks.flatten, writeAll w chunks s)) := by
  induction chunks with
  | nil => intro n t h s; simp [copyLoop, sniffAll, writeAll]
  | cons p chunks ih =>
    intro n t h s
    by_cases hp : p = []
    · subst hp
      simp [copyLoop, sniffAll, writeAll, ih]
    · have hlen : p.length > 0 := List.length_pos.2 hp
      simp [copyLoop, hlen, multiWrite_fanOut_reliable ftw w hftw hw, ih, sniffAll, writeAll, hp,
        Nat.add_assoc]


theorem sink_Write_fst (a : Nat) (p : Bytes) (s : Memstore) :
    ((Memblob.sink a).Write p s).1 = (p.length, none) := rfl

theorem assign_heap_length (m : Memstore) (a : Nat) (f : Memblob) :
    (m.assign a f).heap.length = m.heap.length := by
  simp [Memstore.assign]

theorem writeAll_sink (a : Nat) (chunks : List Bytes) :
    ∀ s : Memstore, a < s.heap.length →
      writeAll (Memblob.sink a) chunks s =
        s.assign a ⟨(s.deref a).ID, (s.deref a).Contents ++ chunks.flatten,
          (s.deref a).buf ++ chunks.flatten⟩ := by
  induction chunks with
  | nil =>
    intro s ha
    simpa [writeAll] using (assign_deref_self s a ha).symm
  | cons p chunks ih =>
    intro s ha
    by_cases hp : p = []
    · subst hp
      simpa [writeAll] using ih s ha
    · have h1 : a < (((Memblob.sink a).Write p s).2).heap.length := by
        simpa [Memblob.sink, Memstore.assign] using ha
      simp only [writeAll, hp, if_false]
      rw [ih _ h1]
      simp [Memblob.sink, Memblob.Write, deref_assign_same _ _ _ ha, assign_assign]

theorem Upload_absent (d : String) (crc : Nat) (s : Memstore) (hd : d ≠ "")
    (habs : ¬ s.Holds d) :
    Memstore.Upload d crc s =
      ((some (Memblob.sink s.heap.length), none),
        ⟨s.heap ++ [NewMemblob d []], (indexKey d, s.heap.length) :: s.blob⟩) := by
  have h1 : Txn.First s d = none := (First_eq_none_iff s d).2 habs
  have h2 : s.blob.lookup (indexKey d) = none := h1
  simp [Memstore.Upload, h1, Memstore.alloc, Txn.Insert, fromObject, Memstore.deref, NewMemblob,
    hd, filter_of_lookup_none _ _ h2]

theorem Upload_present (d : String) (crc : Nat) (s : Memstore) (h : s.Holds d) :
    Memstore.Upload d crc s = ((none, none), s) := by
  cases h1 : Txn.First s d with
  | none => exact absurd h ((First_eq_none_iff s d).1 h1)
  | some a => simp [Memstore.Upload, h1]


theorem StreamingUpload_copied {σ τ : Type} (d : Dependencies σ) (ftw : MagicNumberChecker τ)
    (inp : IncomingBlob) (s : σ) (w : WriteCloser σ) (s1 : σ) (size : Nat)
    (rest : List (Bytes × Option GoError)) (t : τ) (hashed : Bytes) (s2 : σ) (t1 : τ) (s3 : σ)
    (hup : d.Storer.Upload inp.SHA256 inp.CRC32C s = ((some w, none), s1))
    (hcopy : copyLoop (multiWrite (fanOut ftw w)) inp.Data.reads 0 (ftw.init, [], s1) =
      ((size, none), rest, (t, hashed, s2)))
    (hfc : ftw.Close t = (none, t1)) (hwc : w.Close s2 = (none, s3)) :
    StreamingUpload d ftw inp s =
      if hexEncodeToString (sha256Sum hashed) ≠ inp.SHA256 then
        match d.Storer.Delete inp.SHA256 s3 with
        | (some err, s4) => ⟨Blob.empty, some err, s4, ⟨rest, true⟩⟩
        | (none, s4) =>
          ⟨Blob.empty, some (GoError.New "supplied hash did not match file hash"), s4,
            ⟨rest, true⟩⟩
      else ⟨⟨hexEncodeToString (sha256Sum hashed), size, ftw.MatchedMIME t1⟩, none, s3,
        ⟨rest, true⟩⟩ := by
  by_cases hs : hexEncodeToString (sha256Sum hashed) = inp.SHA256
  · simp [StreamingUpload, hup, ioCopy, hcopy, hfc, hwc, Source.Close, hs]
  · simp only [StreamingUpload, hup, ioCopy, hcopy, hfc, hwc, Source.Close, hs, ne_eq,
      not_false_eq_true, if_true]

theorem Delete_fresh (d : String) (heap : List Memblob) (blob : List (String × Nat))
    (c b : Bytes) (hd : d ≠ "") (hlk : blob.lookup (indexKey d) = none) :
    Memstore.Delete d ⟨heap ++ [⟨d, c, b⟩], (indexKey d, heap.length) :: blob⟩ =
      (none, ⟨heap ++ [⟨d, c, b⟩], blob⟩) := by
  simp [Memstore.Delete, Txn.First, Txn.Delete, fromObject, Memstore.deref, hd,
    filter_of_lookup_none _ _ hlk]

/-- The outcome of `StreamingUpload` on a `Memstore` without a record under the claimed
digest, for a stream that does not fail: success when the digest matches, rollback when it
does not. -/
theorem StreamingUpload_absent {τ : Type} (ftw : MagicNumberChecker τ) (hftw : ftw.Reliable)
    (chunks : List Bytes) (d : String) (crc : Nat) (s : Memstore) (hd : d ≠ "")
    (habs : ¬ s.Holds d) :
    StreamingUpload memDeps ftw ⟨d, Source.ofChunks chunks, crc⟩ s =
      if sha256Hex chunks.flatten = d then
        ⟨⟨sha256Hex chunks.flatten, chunks.flatten.length,
            ftw.MatchedMIME (ftw.Close (sniffAll ftw chunks ftw.init)).2⟩, none,
          ⟨s.heap ++ [⟨d, chunks.flatten, chunks.flatten⟩], (indexKey d, s.heap.length) :: s.blob⟩,
          ⟨[], true⟩⟩
      else
        ⟨Blob.empty, some (GoError.New "supplied hash did not match file hash"),
          ⟨s.heap ++ [⟨d, chunks.flatten, chunks.flatten⟩], s.blob⟩, ⟨[], true⟩⟩ := by
  have hup : memDeps.Storer.Upload d crc s = _ := Upload_absent d crc s hd habs
  have hcopy := copyLoop_reliable ftw (Memblob.sink s.heap.length) hftw
    (sink_Write_fst s.heap.length) chunks 0 ftw.init []
    ⟨s.heap ++ [NewMemblob d []], (indexKey d, s.heap.length) :: s.blob⟩
  have hwr := writeAll_sink s.heap.length chunks
    ⟨s.heap ++ [NewMemblob d []], (indexKey d, s.heap.length) :: s.blob⟩ (by simp)
  rw [hwr] at hcopy
  have hcl : (ftw.Close (sniffAll ftw chunks ftw.init)).1 = none := hftw.2 _
  have hlk : s.blob.lookup (indexKey d) = none := (First_eq_none_iff s d).2 habs
  have hfc : ftw.Close (sniffAll ftw chunks ftw.init) =
      (none, (ftw.Close (sniffAll ftw chunks ftw.init)).2) := by
    rw [← hcl]
  have hst : (Memstore.mk (s.heap ++ [NewMemblob d []]) ((indexKey d, s.heap.length) :: s.blob)).assign
      s.heap.length ⟨d, chunks.flatten, chunks.flatten⟩ =
      ⟨s.heap ++ [⟨d, chunks.flatten, chunks.flatten⟩], (indexKey d, s.heap.length) :: s.blob⟩ := by
    simp [Memstore.assign]
  have hwc : (Memblob.sink s.heap.length).Close
      ⟨s.heap ++ [⟨d, chunks.flatten, chunks.flatten⟩], (indexKey d, s.heap.length) :: s.blob⟩ =
      (none, ⟨s.heap ++ [⟨d, chunks.flatten, chunks.flatten⟩],
        (indexKey d, s.heap.length) :: s.blob⟩) := by
    simp [Memblob.sink, Memblob.Close, Memstore.assign, Memstore.deref]
  have hcopy2 : copyLoop (multiWrite (fanOut ftw (Memblob.sink s.heap.length)))
      (Source.ofChunks chunks).reads 0 (ftw.init, [],
        ⟨s.heap ++ [NewMemblob d []], (indexKey d, s.heap.length) :: s.blob⟩) =
      ((chunks.flatten.length, none), [], (sniffAll ftw chunks ftw.init, chunks.flatten,
        ⟨s.heap ++ [⟨d, chunks.flatten, chunks.flatten⟩],
          (indexKey d, s.heap.length) :: s.blob⟩)) := by
    rw [Source.ofChunks, hcopy, ← hst]
    simp [Memstore.deref, NewMemblob]
  rw [StreamingUpload_copied memDeps ftw ⟨d, Source.ofChunks chunks, crc⟩ s _ _ _ _ _ _ _ _ _
    hup hcopy2 hfc hwc]
  by_cases hsum : sha256Hex chunks.flatten = d
  · have hsum2 : hexEncodeToString (sha256Sum chunks.flatten) = d := hsum
    simp [hsum, hsum2]
  · have hsum2 : ¬ hexEncodeToString (sha256Sum chunks.flatten) = d := hsum
    have hdel : memDeps.Storer.Delete d
        ⟨s.heap ++ [⟨d, chunks.flatten, chunks.flatten⟩],
          (indexKey d, s.heap.length) :: s.blob⟩ = _ :=
      Delete_fresh d s.heap s.blob chunks.flatten chunks.flatten hd hlk
    simp [hsum, hsum2, hdel]


/-- Reading a `Memblob` to the end yields its unread bytes, once the calls of `Read` allowed
outnumber them. -/
theorem readAll_reader (a : Nat) :
    ∀ (fuel : Nat) (s : Memstore) (acc : Bytes),
      a < s.heap.length → (s.deref a).buf.length < fuel →
      readAll (Memblob.reader a) fuel s acc =
        some ((acc ++ (s.deref a).buf, none),
          s.assign a ⟨(s.deref a).ID, (s.deref a).Contents, []⟩) := by
  intro fuel
  induction fuel with
  | zero => intro s acc _ h; exact absurd h (Nat.not_lt_zero _)
  | succ fuel ih =>
    intro s acc ha hlen
    by_cases hb : (s.deref a).buf = []
    · have h1 : (Memblob.reader a).Read 32768 s = (([], some GoError.EOF), s) := by
        simp [Memblob.reader, Memblob.Read, hb, assign_deref_self s a ha]
      have h2 : s.assign a ⟨(s.deref a).ID, (s.deref a).Contents, []⟩ = s := by
        rw [← hb]; exact assign_deref_self s a ha
      simp [readAll, h1, hb, h2]
    · have h1 : (Memblob.reader a).Read 32768 s =
          (((s.deref a).buf.take 32768, none),
            s.assign a ⟨(s.deref a).ID, (s.deref a).Contents, (s.deref a).buf.drop 32768⟩) := by
        simp [Memblob.reader, Memblob.Read, hb]
      have h3 : ((s.deref a).buf.drop 32768).length < fuel := by
        have : 0 < (s.deref a).buf.length := List.length_pos.2 hb
        rw [List.length_drop]
        omega
      have h4 := ih (s.assign a ⟨(s.deref a).ID, (s.deref a).Contents, (s.deref a).buf.drop 32768⟩)
        (acc ++ (s.deref a).buf.take 32768) (by rw [assign_heap_length]; exact ha)
        (by rw [deref_assign_same _ _ _ ha]; exact h3)
      simp only [readAll, h1]
      rw [h4, deref_assign_same _ _ _ ha, assign_assign]
      simp [List.append_assoc]

theorem writeEach_sink (a : Nat) (ps : List Bytes) :
    ∀ s : Memstore, a < s.heap.length →
      writeEach (Memblob.sink a) ps s =
        s.assign a ⟨(s.deref a).ID, (s.deref a).Contents ++ ps.flatten,
          (s.deref a).buf ++ ps.flatten⟩ := by
  induction ps with
  | nil =>
    intro s ha
    simpa [writeEach] using (assign_deref_self s a ha).symm
  | cons p ps ih =>
    intro s ha
    have h1 : a < (((Memblob.sink a).Write p s).2).heap.length := by
      simpa [Memblob.sink, Memstore.assign] using ha
    have h2 := ih _ h1
    simp only [writeEach, List.foldl_cons] at h2 ⊢
    rw [h2]
    simp [Memblob.sink, Memblob.Write, deref_assign_same _ _ _ ha, assign_assign]

theorem Download_of_First (s : Memstore) (d : String) (a : Nat) (h : Txn.First s d = some a) :
    Memstore.Download d s = ((some (Memblob.reader a), none), s) := by
  simp [Memstore.Download, h]

theorem Download_absent (s : Memstore) (d : String) (h : ¬ s.Holds d) :
    Memstore.Download d s = ((none, some GoError.ErrHashNotFound), s) := by
  simp [Memstore.Download, (First_eq_none_iff s d).2 h]

/-! ## The representation invariant is kept by every operation -/

theorem WF_NewMemstore : NewMemstore.WF := by
  intro k a h
  cases h

theorem deref_assign_ne (m : Memstore) (a b : Nat) (f : Memblob) (h : a ≠ b) :
    (m.assign a f).deref b = m.deref b := by
  simp [Memstore.assign, Memstore.deref, List.getD, List.getElem?_set_ne h]

theorem fromObject_eq_of_ID (f g : Memblob) (h : f.ID = g.ID) : fromObject f = fromObject g := by
  simp [fromObject, h]

theorem WF_assign (s : Memstore) (a : Nat) (f : Memblob) (hwf : s.WF)
    (hid : f.ID = (s.deref a).ID) : (s.assign a f).WF := by
  intro k b hb
  have h1 := hwf k b hb
  refine ⟨by rw [assign_heap_length]; exact h1.1, ?_⟩
  by_cases hab : a = b
  · subst hab
    rw [deref_assign_same _ _ _ h1.1, fromObject_eq_of_ID _ _ hid]
    exact h1.2
  · rw [deref_assign_ne _ _ _ _ hab]
    exact h1.2

theorem WF_sink_Write (a : Nat) (p : Bytes) (s : Memstore) (hwf : s.WF) :
    ((Memblob.sink a).Write p s).2.WF :=
  WF_assign s a _ hwf rfl

theorem WF_sink_Close (a : Nat) (s : Memstore) (hwf : s.WF) :
    ((Memblob.sink a).Close s).2.WF :=
  WF_assign s a _ hwf rfl

theorem WF_reader_Read (a n : Nat) (s : Memstore) (hwf : s.WF) :
    ((Memblob.reader a).Read n s).2.WF := by
  apply WF_assign s a _ hwf
  simp only [Memblob.Read]
  split
  · split <;> rfl
  · rfl

theorem WF_reader_Close (a : Nat) (s : Memstore) (hwf : s.WF) :
    ((Memblob.reader a).Close s).2.WF :=
  WF_assign s a _ hwf rfl

theorem deref_append_lt (heap : List Memblob) (blob blob2 : List (String × Nat)) (f : Memblob)
    (a : Nat) (h : a < heap.length) :
    (Memstore.mk (heap ++ [f]) blob).deref a = (Memstore.mk heap blob2).deref a := by
  simp [Memstore.deref, List.getD, List.getElem?_append_left h]

theorem Upload_empty (crc : Nat) (s : Memstore) (habs : ¬ s.Holds "") :
    Memstore.Upload "" crc s =
      ((none, some (GoError.New "object missing primary index")), s) := by
  have h1 : Txn.First s "" = none := (First_eq_none_iff s "").2 habs
  simp [Memstore.Upload, h1, Memstore.alloc, Txn.Insert, fromObject, Memstore.deref, NewMemblob]

theorem WF_Upload (d : String) (crc : Nat) (s : Memstore) (hwf : s.WF) :
    (Memstore.Upload d crc s).2.WF := by
  by_cases hh : s.Holds d
  · rw [Upload_present d crc s hh]; exact hwf
  · by_cases hd : d = ""
    · subst hd
      rw [Upload_empty crc s hh]; exact hwf
    · rw [Upload_absent d crc s hd hh]
      intro k b hb
      rcases List.mem_cons.1 hb with h2 | h2
      · injection h2 with hk hb2
        subst hk; subst hb2
        refine ⟨by simp, ?_⟩
        simp [Memstore.deref, fromObject, NewMemblob, hd]
      · have h3 := hwf k b h2
        refine ⟨by simp; omega, ?_⟩
        rw [deref_append_lt s.heap _ s.blob _ b h3.1]
        exact h3.2

theorem WF_Delete (d : String) (s : Memstore) (hwf : s.WF) : (Memstore.Delete d s).2.WF := by
  unfold Memstore.Delete
  cases h1 : Txn.First s d with
  | none => exact hwf
  | some a =>
    simp only
    unfold Txn.Delete
    cases h2 : fromObject (s.deref a) with
    | none => exact hwf
    | some k =>
      simp only
      cases h3 : s.blob.lookup k with
      | none => exact hwf
      | some b =>
        intro k2 b2 hb
        exact hwf k2 b2 (List.mem_filter.1 hb).1

theorem multiWrite_invariant {σ τ : Type} (P : σ → Prop) (ftw : MagicNumberChecker τ)
    (w : WriteCloser σ) (hP : ∀ p s, P s → P (w.Write p s).2) (p : Bytes) (t : τ) (h : Bytes)
    (s : σ) (hs : P s) : P (multiWrite (fanOut ftw w) p (t, h, s)).2.2.2 := by
  rcases hf : ftw.Write p t with ⟨⟨n1, e1⟩, t1⟩
  rcases hw : w.Write p s with ⟨⟨n3, e3⟩, s3⟩
  have h3 : P s3 := by have := hP p s hs; rw [hw] at this; exact this
  cases e1 with
  | some e => simpa [multiWrite, fanOut, hf] using hs
  | none =>
    by_cases h1 : n1 = p.length
    · cases e3 with
      | some e => simpa [multiWrite, fanOut, hf, hw, h1] using h3
      | none =>
        by_cases h4 : n3 = p.length
        · simpa [multiWrite, fanOut, hf, hw, h1, h4] using h3
        · simpa [multiWrite, fanOut, hf, hw, h1, h4] using h3
    · simpa [multiWrite, fanOut, hf, h1] using hs

theorem copyLoop_invariant {σ τ : Type} (P : σ → Prop) (ftw : MagicNumberChecker τ)
    (w : WriteCloser σ) (hP : ∀ p s, P s → P (w.Write p s).2)
    (reads : List (Bytes × Option GoError)) :
    ∀ (n : Nat) (t : τ) (h : Bytes) (s : σ), P s →
      P (copyLoop (multiWrite (fanOut ftw w)) reads n (t, h, s)).2.2.2.2 := by
  induction reads with
  | nil => intro n t h s hs; simpa [copyLoop] using hs
  | cons x reads ih =>
    obtain ⟨p, er⟩ := x
    intro n t h s hs
    by_cases hp : p = []
    · subst hp
      cases er with
      | some e => simpa [copyLoop] using hs
      | none => simpa [copyLoop] using ih n t h s hs
    · have hlen : p.length > 0 := List.length_pos.2 hp
      have hst := multiWrite_invariant P ftw w hP p t h s hs
      rcases hm : multiWrite (fanOut ftw w) p (t, h, s) with ⟨⟨nw, ew⟩, t1, h1, s1⟩
      rw [hm] at hst
      cases ew with
      | some e => simpa [copyLoop, hlen, hm] using hst
      | none =>
        by_cases hn : p.length = nw
        · subst hn
          cases er with
          | some e => simpa [copyLoop, hlen, hm] using hst
          | none =>
            have := ih (n + p.length) t1 h1 s1 hst
            simpa [copyLoop, hlen, hm] using this
        · simpa [copyLoop, hlen, hm, hn] using hst

/-- A property of the backend state that `Upload`, the writes to the sink, its `Close` and
`Delete` keep is kept by `StreamingUpload`. -/
theorem StreamingUpload_invariant {σ τ : Type} (P : σ → Prop) (d : Dependencies σ)
    (ftw : MagicNumberChecker τ) (inp : IncomingBlob) (s : σ)
    (hU : P (d.Storer.Upload inp.SHA256 inp.CRC32C s).2)
    (hW : ∀ w, (d.Storer.Upload inp.SHA256 inp.CRC32C s).1.1 = some w →
      (∀ p s1, P s1 → P (w.Write p s1).2) ∧ (∀ s1, P s1 → P (w.Close s1).2))
    (hD : ∀ s1, P s1 → P (d.Storer.Delete inp.SHA256 s1).2) :
    P (StreamingUpload d ftw inp s).store := by
  rcases hup : d.Storer.Upload inp.SHA256 inp.CRC32C s with ⟨⟨ow, oe⟩, s1⟩
  rw [hup] at hU hW
  simp only at hU hW
  cases oe with
  | some e => simpa [StreamingUpload, hup] using hU
  | none =>
    cases ow with
    | none => simpa [StreamingUpload, hup] using hU
    | some w =>
      obtain ⟨hWr, hCl⟩ := hW w rfl
      have hc := copyLoop_invariant P ftw w hWr inp.Data.reads 0 ftw.init [] s1 hU
      rcases hcl : copyLoop (multiWrite (fanOut ftw w)) inp.Data.reads 0 (ftw.init, [], s1) with
        ⟨⟨size, e⟩, rest, t, hashed, s2⟩
      rw [hcl] at hc
      simp only at hc
      cases e with
      | some e => simpa [StreamingUpload, hup, ioCopy, hcl] using hc
      | none =>
        rcases hfc : ftw.Close t with ⟨e1, t1⟩
        cases e1 with
        | some e => simpa [StreamingUpload, hup, ioCopy, hcl, hfc] using hc
        | none =>
          have h3 := hCl s2 hc
          rcases hwc : w.Close s2 with ⟨e2, s3⟩
          rw [hwc] at h3
          simp only at h3
          cases e2 with
          | some e => simpa [StreamingUpload, hup, ioCopy, hcl, hfc, hwc] using h3
          | none =>
            rw [StreamingUpload_copied d ftw inp s w s1 size rest t hashed s2 t1 s3 hup hcl hfc hwc]
            by_cases hsum : hexEncodeToString (sha256Sum hashed) = inp.SHA256
            · simpa [hsum] using h3
            · have h4 := hD s3 h3
              rcases hdel : d.Storer.Delete inp.SHA256 s3 with ⟨e3, s4⟩
              rw [hdel] at h4
              cases e3 <;> simpa [hsum, hdel] using h4

theorem Upload_sink_cases (d : String) (crc : Nat) (s : Memstore) :
    (Memstore.Upload d crc s).1.1 = none ∨
      (Memstore.Upload d crc s).1.1 = some (Memblob.sink s.heap.length) := by
  by_cases hh : s.Holds d
  · rw [Upload_present d crc s hh]; exact Or.inl rfl
  · by_cases hd : d = ""
    · subst hd; rw [Upload_empty crc s hh]; exact Or.inl rfl
    · rw [Upload_absent d crc s hd hh]; exact Or.inr rfl

/-- The representation invariant is kept by `StreamingUpload`, whatever the stream and the
sniffer do. -/
theorem WF_StreamingUpload {τ : Type} (ftw : MagicNumberChecker τ) (inp : IncomingBlob)
    (s : Memstore) (hwf : s.WF) : (StreamingUpload memDeps ftw inp s).store.WF := by
  apply StreamingUpload_invariant Memstore.WF memDeps ftw inp s
  · exact WF_Upload inp.SHA256 inp.CRC32C s hwf
  · intro w hw
    rcases Upload_sink_cases inp.SHA256 inp.CRC32C s with h | h
    · have h2 : (Memstore.Upload inp.SHA256 inp.CRC32C s).1.1 = some w := hw
      rw [h] at h2; cases h2
    · have h2 : (Memstore.Upload inp.SHA256 inp.CRC32C s).1.1 = some w := hw
      rw [h] at h2
      injection h2 with h2
      subst h2
      exact ⟨fun p s1 h1 => WF_sink_Write _ p s1 h1, fun s1 h1 => WF_sink_Close _ s1 h1⟩
  · intro s1 h1
    exact WF_Delete inp.SHA256 s1 h1

/-- Every store a program can reach satisfies the representation invariant. -/
theorem WF_of_Reachable (s : Memstore) (h : s.Reachable) : s.WF := by
  induction h with
  | init => exact WF_NewMemstore
  | upload d crc s _ ih => exact WF_Upload d crc s ih
  | delete d s _ ih => exact WF_Delete d s ih
  | write a p s _ ih => exact WF_sink_Write a p s ih
  | close a s _ ih => exact WF_sink_Close a s ih
  | read a n s _ ih => exact WF_reader_Read a n s ih

/-! ## Facts about the sample store -/

theorem indexKey_sampleDigest : indexKey sampleDigest = sampleDigest := by decide

/-- The folding is that of Go above ASCII too: the Kelvin sign has the key of `k`. -/
theorem indexKey_kelvin : indexKey "\u212a" = indexKey "k" := by decide

/-- The folding maps an accented capital as Go does, along with the ASCII letters. -/
theorem indexKey_accent : indexKey "\u00c9A1" = "\u00e9a1" := by decide

theorem sampleDigest_ne_empty : sampleDigest ≠ "" := by decide

theorem sha256Hex_sample : sha256Hex [1, 2, 3] = sampleDigest := by decide

theorem sampleStore_First : Txn.First sampleStore sampleDigest = some 0 := by
  simp [Txn.First, sampleStore, indexKey_sampleDigest]

theorem sampleStore_Holds : sampleStore.Holds sampleDigest := by decide

theorem sampleStore_WF : sampleStore.WF := by
  intro k a h
  simp only [sampleStore, List.mem_singleton, Prod.mk.injEq] at h
  obtain ⟨rfl, rfl⟩ := h
  refine ⟨by simp [sampleStore], ?_⟩
  simp [sampleStore, Memstore.deref, fromObject, sampleDigest_ne_empty, indexKey_sampleDigest]

theorem NewMemstore_not_Holds (d : String) : ¬ NewMemstore.Holds d := by
  simp [Memstore.Holds, NewMemstore]

theorem unknown_Reliable : MagicNumberChecker.unknown.Reliable :=
  ⟨fun _ _ => rfl, fun _ => rfl⟩

/-! ## The claims -/

/-- C1 (round trip on Memstore). For every byte sequence `b`, however the stream hands it
out in chunks, and every store that holds no record under `d = hex(sha256(b))`:
`StreamingUpload` of `b` with claimed digest `d` returns a nil error, and `Download(d)` on the
store it leaves returns a nil error and a reader that, read to the end of the stream, yields
exactly `b` (for every number of `Read` calls allowed beyond the length of `b`). The sniffer
is any one that accepts its writes and closes without error. -/
theorem round_trip_on_memstore {τ : Type} (ftw : MagicNumberChecker τ) (hftw : ftw.Reliable)
    (chunks : List Bytes) (crc : Nat) (s : Memstore)
    (habs : ¬ s.Holds (sha256Hex chunks.flatten)) :
    (StreamingUpload memDeps ftw
        ⟨sha256Hex chunks.flatten, Source.ofChunks chunks, crc⟩ s).err = none ∧
    ∃ a,
      Memstore.Download (sha256Hex chunks.flatten)
          (StreamingUpload memDeps ftw
            ⟨sha256Hex chunks.flatten, Source.ofChunks chunks, crc⟩ s).store =
        ((some (Memblob.reader a), none),
          (StreamingUpload memDeps ftw
            ⟨sha256Hex chunks.flatten, Source.ofChunks chunks, crc⟩ s).store) ∧
      ∀ fuel, chunks.flatten.length < fuel →
        ∃ s2, readAll (Memblob.reader a) fuel
          (StreamingUpload memDeps ftw
            ⟨sha256Hex chunks.flatten, Source.ofChunks chunks, crc⟩ s).store [] =
          some ((chunks.flatten, none), s2) := by
  rw [StreamingUpload_absent ftw hftw chunks _ crc s (sha256Hex_ne_empty _) habs]
  simp only [if_true]
  refine ⟨trivial, s.heap.length, ?_, ?_⟩
  · exact Download_of_First _ _ _ (by simp [Txn.First])
  · intro fuel hf
    have h := readAll_reader s.heap.length fuel
      ⟨s.heap ++ [⟨sha256Hex chunks.flatten, chunks.flatten, chunks.flatten⟩],
        (indexKey (sha256Hex chunks.flatten), s.heap.length) :: s.blob⟩ [] (by simp)
      (by simpa [Memstore.deref] using hf)
    rw [h]
    simp [Memstore.deref]

theorem round_trip_on_memstore_witness :
    ¬ NewMemstore.Holds (sha256Hex ([[1], [2, 3]] : List Bytes).flatten) ∧
    ((StreamingUpload memDeps MagicNumberChecker.unknown
        ⟨sha256Hex ([[1], [2, 3]] : List Bytes).flatten, Source.ofChunks [[1], [2, 3]], 7⟩
        NewMemstore).err = none ∧
    ∃ a,
      Memstore.Download (sha256Hex ([[1], [2, 3]] : List Bytes).flatten)
          (StreamingUpload memDeps MagicNumberChecker.unknown
            ⟨sha256Hex ([[1], [2, 3]] : List Bytes).flatten, Source.ofChunks [[1], [2, 3]], 7⟩
            NewMemstore).store =
        ((some (Memblob.reader a), none),
          (StreamingUpload memDeps MagicNumberChecker.unknown
            ⟨sha256Hex ([[1], [2, 3]] : List Bytes).flatten, Source.ofChunks [[1], [2, 3]], 7⟩
            NewMemstore).store) ∧
      ∀ fuel, ([[1], [2, 3]] : List Bytes).flatten.length < fuel →
        ∃ s2, readAll (Memblob.reader a) fuel
          (StreamingUpload memDeps MagicNumberChecker.unknown
            ⟨sha256Hex ([[1], [2, 3]] : List Bytes).flatten, Source.ofChunks [[1], [2, 3]], 7⟩
            NewMemstore).store [] =
          some ((([[1], [2, 3]] : List Bytes).flatten, none), s2)) :=
  ⟨by simp [Memstore.Holds, NewMemstore],
    round_trip_on_memstore MagicNumberChecker.unknown ⟨fun _ _ => rfl, fun _ => rfl⟩
      [[1], [2, 3]] 7 NewMemstore (by simp [Memstore.Holds, NewMemstore])⟩

theorem Holds_of_First (s : Memstore) (d : String) (a : Nat) (h : Txn.First s d = some a) :
    s.Holds d :=
  ⟨(indexKey d, a), lookup_some_mem _ _ _ h, rfl⟩

/-- The outcome of `StreamingUpload` on a `Memstore` that holds a record under the claimed
digest: nothing is read and nothing is written. -/
theorem StreamingUpload_present {τ : Type} (ftw : MagicNumberChecker τ) (inp : IncomingBlob)
    (s : Memstore) (h : s.Holds inp.SHA256) :
    StreamingUpload memDeps ftw inp s = ⟨Blob.empty, none, s, inp.Data.Close⟩ := by
  have hup : memDeps.Storer.Upload inp.SHA256 inp.CRC32C s = ((none, none), s) :=
    Upload_present inp.SHA256 inp.CRC32C s h
  simp only [StreamingUpload, hup]

theorem Delete_absent (x : String) (s : Memstore) (h : ¬ s.Holds x) :
    Memstore.Delete x s = (none, s) := by
  simp [Memstore.Delete, (First_eq_none_iff s x).2 h]

theorem Delete_present (x : String) (s : Memstore) (hwf : s.WF) (h : s.Holds x) :
    Memstore.Delete x s = (none, ⟨s.heap, s.blob.filter (fun e => e.1 != indexKey x)⟩) := by
  cases h1 : Txn.First s x with
  | none => exact absurd h ((First_eq_none_iff s x).1 h1)
  | some a =>
    have h2 := (hwf _ _ (lookup_some_mem _ _ _ h1)).2
    have h3 : s.blob.lookup (indexKey x) = some a := h1
    simp [Memstore.Delete, h1, Txn.Delete, h2, h3]

theorem not_Holds_filter (x : String) (heap : List Memblob) (blob : List (String × Nat)) :
    ¬ (Memstore.mk heap (blob.filter (fun e => e.1 != indexKey x))).Holds x :=
  (First_eq_none_iff _ x).1 (lookup_filter_ne (indexKey x) blob)

theorem not_Holds_after_Delete (x : String) (s : Memstore) (hwf : s.WF) :
    ¬ (Memstore.Delete x s).2.Holds x := by
  by_cases h : s.Holds x
  · rw [Delete_present x s hwf h]; exact not_Holds_filter x _ _
  · rw [Delete_absent x s h]; exact h

theorem Delete_nil (x : String) (s : Memstore) (hwf : s.WF) : (Memstore.Delete x s).1 = none := by
  by_cases h : s.Holds x
  · rw [Delete_present x s hwf h]
  · rw [Delete_absent x s h]

/-- C2 (mismatch rollback), as amended. For every byte sequence `b`, however chunked, every
claimed digest `d` that is not the empty string and differs from `hex(sha256(b))`, and every
store that holds no record under `d`: `StreamingUpload` returns the empty `Blob` and the error
`supplied hash did not match file hash`, and `Download(d)` on the store it leaves returns
`ErrHashNotFound` and no reader. -/
theorem mismatch_rollback {τ : Type} (ftw : MagicNumberChecker τ) (hftw : ftw.Reliable)
    (chunks : List Bytes) (d : String) (crc : Nat) (s : Memstore) (hd : d ≠ "")
    (hne : d ≠ sha256Hex chunks.flatten) (habs : ¬ s.Holds d) :
    (StreamingUpload memDeps ftw ⟨d, Source.ofChunks chunks, crc⟩ s).blob = Blob.empty ∧
    (StreamingUpload memDeps ftw ⟨d, Source.ofChunks chunks, crc⟩ s).err =
      some (GoError.New "supplied hash did not match file hash") ∧
    Memstore.Download d (StreamingUpload memDeps ftw ⟨d, Source.ofChunks chunks, crc⟩ s).store =
      ((none, some GoError.ErrHashNotFound),
        (StreamingUpload memDeps ftw ⟨d, Source.ofChunks chunks, crc⟩ s).store) := by
  rw [StreamingUpload_absent ftw hftw chunks d crc s hd habs]
  have h1 : ¬ sha256Hex chunks.flatten = d := fun h => hne h.symm
  simp only [h1, if_false]
  exact ⟨trivial, trivial, Download_absent _ d habs⟩

theorem mismatch_rollback_witness :
    sampleDigest ≠ "" ∧ sampleDigest ≠ sha256Hex ([[9]] : List Bytes).flatten ∧
    ¬ NewMemstore.Holds sampleDigest ∧
    ((StreamingUpload memDeps MagicNumberChecker.unknown
        ⟨sampleDigest, Source.ofChunks [[9]], 0⟩ NewMemstore).blob = Blob.empty ∧
    (StreamingUpload memDeps MagicNumberChecker.unknown
        ⟨sampleDigest, Source.ofChunks [[9]], 0⟩ NewMemstore).err =
      some (GoError.New "supplied hash did not match file hash") ∧
    Memstore.Download sampleDigest (StreamingUpload memDeps MagicNumberChecker.unknown
        ⟨sampleDigest, Source.ofChunks [[9]], 0⟩ NewMemstore).store =
      ((none, some GoError.ErrHashNotFound),
        (StreamingUpload memDeps MagicNumberChecker.unknown
          ⟨sampleDigest, Source.ofChunks [[9]], 0⟩ NewMemstore).store)) :=
  ⟨by decide, by decide, NewMemstore_not_Holds _,
    mismatch_rollback MagicNumberChecker.unknown unknown_Reliable [[9]] sampleDigest 0 NewMemstore
      (by decide) (by decide) (NewMemstore_not_Holds _)⟩

theorem mismatch_rollback_empty_digest :
    "" ≠ sha256Hex ([[9]] : List Bytes).flatten ∧ ¬ NewMemstore.Holds "" ∧
    (StreamingUpload memDeps MagicNumberChecker.unknown
        ⟨"", Source.ofChunks [[9]], 0⟩ NewMemstore).err =
      some (GoError.New "object missing primary index") ∧
    (StreamingUpload memDeps MagicNumberChecker.unknown
        ⟨"", Source.ofChunks [[9]], 0⟩ NewMemstore).err ≠
      some (GoError.New "supplied hash did not match file hash") := by
  refine ⟨fun h => sha256Hex_ne_empty _ h.symm, NewMemstore_not_Holds _, ?_⟩
  have h : (StreamingUpload memDeps MagicNumberChecker.unknown
        ⟨"", Source.ofChunks [[9]], 0⟩ NewMemstore).err =
      some (GoError.New "object missing primary index") := rfl
  rw [h]
  exact ⟨rfl, by decide⟩

/-- C3 (digest authority). For every `Storer`, sniffer, input and state: when `Upload` handed
out a sink `w` and `StreamingUpload` returns a nil error, the returned `SHA256` is the
digest of the bytes copied from the stream, it equals the claimed digest, and the backend is
in the state that writing exactly those chunks to `w` and closing `w` produces. -/
theorem digest_authority {σ τ : Type} (d : Dependencies σ) (ftw : MagicNumberChecker τ)
    (inp : IncomingBlob) (s : σ) (w : WriteCloser σ) (s1 : σ)
    (hup : d.Storer.Upload inp.SHA256 inp.CRC32C s = ((some w, none), s1))
    (herr : (StreamingUpload d ftw inp s).err = none) :
    (StreamingUpload d ftw inp s).blob.SHA256 = sha256Hex (copied inp.Data.reads).flatten ∧
    (StreamingUpload d ftw inp s).blob.SHA256 = inp.SHA256 ∧
    (StreamingUpload d ftw inp s).store = (w.Close (writeAll w (copied inp.Data.reads) s1)).2 := by
  rcases hc : copyLoop (multiWrite (fanOut ftw w)) inp.Data.reads 0 (ftw.init, [], s1) with
    ⟨⟨size, e⟩, rest, t, hashed, s2⟩
  cases e with
  | some e =>
    simp [StreamingUpload, hup, ioCopy, hc] at herr
  | none =>
    obtain ⟨_, hst⟩ := copyLoop_ok ftw w inp.Data.reads 0 ftw.init [] s1 size rest _ hc
    simp only [Prod.mk.injEq, List.nil_append] at hst
    obtain ⟨ht, hh, hs2⟩ := hst
    rcases hfc : ftw.Close t with ⟨e1, t1⟩
    cases e1 with
    | some e => simp [StreamingUpload, hup, ioCopy, hc, hfc] at herr
    | none =>
      rcases hwc : w.Close s2 with ⟨e2, s3⟩
      cases e2 with
      | some e => simp [StreamingUpload, hup, ioCopy, hc, hfc, hwc] at herr
      | none =>
        rw [StreamingUpload_copied d ftw inp s w s1 size rest t hashed s2 t1 s3 hup hc hfc hwc]
          at herr ⊢
        by_cases hsum : hexEncodeToString (sha256Sum hashed) = inp.SHA256
        · simp only [hsum, ne_eq, not_true_eq_false, if_false]
          refine ⟨?_, trivial, ?_⟩
          · rw [← hsum, hh]; rfl
          · rw [← hs2, hwc]
        · simp only [hsum, ne_eq, not_false_eq_true, if_true] at herr
          rcases hdel : d.Storer.Delete inp.SHA256 s3 with ⟨e3, s4⟩
          rw [hdel] at herr
          cases e3 <;> simp at herr

theorem sample_Upload :
    memDeps.Storer.Upload sampleDigest 7 NewMemstore =
      ((some (Memblob.sink 0), none), ⟨[NewMemblob sampleDigest []], [(sampleDigest, 0)]⟩) := by
  have h := Upload_absent sampleDigest 7 NewMemstore sampleDigest_ne_empty
    (NewMemstore_not_Holds _)
  simpa [NewMemstore, indexKey_sampleDigest] using h

theorem digest_authority_witness :
    memDeps.Storer.Upload sampleDigest 7 NewMemstore =
      ((some (Memblob.sink 0), none), ⟨[NewMemblob sampleDigest []], [(sampleDigest, 0)]⟩) ∧
    (StreamingUpload memDeps MagicNumberChecker.unknown
      ⟨sampleDigest, Source.ofChunks [[1], [2, 3]], 7⟩ NewMemstore).err = none ∧
    ((StreamingUpload memDeps MagicNumberChecker.unknown
        ⟨sampleDigest, Source.ofChunks [[1], [2, 3]], 7⟩ NewMemstore).blob.SHA256 =
      sha256Hex (copied (Source.ofChunks [[1], [2, 3]]).reads).flatten ∧
    (StreamingUpload memDeps MagicNumberChecker.unknown
        ⟨sampleDigest, Source.ofChunks [[1], [2, 3]], 7⟩ NewMemstore).blob.SHA256 =
      sampleDigest ∧
    (StreamingUpload memDeps MagicNumberChecker.unknown
        ⟨sampleDigest, Source.ofChunks [[1], [2, 3]], 7⟩ NewMemstore).store =
      ((Memblob.sink 0).Close (writeAll (Memblob.sink 0)
        (copied (Source.ofChunks [[1], [2, 3]]).reads)
        ⟨[NewMemblob sampleDigest []], [(sampleDigest, 0)]⟩)).2) :=
  ⟨sample_Upload, by decide,
    digest_authority memDeps MagicNumberChecker.unknown
      ⟨sampleDigest, Source.ofChunks [[1], [2, 3]], 7⟩ NewMemstore (Memblob.sink 0)
      ⟨[NewMemblob sampleDigest []], [(sampleDigest, 0)]⟩ sample_Upload (by decide)⟩

theorem sha256Hex_nil :
    sha256Hex [] = "e3b0c44298fc1c149afbf4c8996fb92427ae41e4649b934ca495991b7852b855" := by
  decide

theorem sampleStore_not_Holds_nil :
    ¬ sampleStore.Holds (sha256Hex ([] : List Bytes).flatten) := by
  rw [List.flatten_nil, sha256Hex_nil]
  decide

/-- C4 (size accuracy). For every byte sequence `b`, the empty one included, uploaded with
its true digest to a store that holds no record under it: `StreamingUpload` returns a nil
error and a `Blob` whose `Size` is the length of `b`. -/
theorem size_accuracy {τ : Type} (ftw : MagicNumberChecker τ) (hftw : ftw.Reliable)
    (chunks : List Bytes) (crc : Nat) (s : Memstore)
    (habs : ¬ s.Holds (sha256Hex chunks.flatten)) :
    (StreamingUpload memDeps ftw
        ⟨sha256Hex chunks.flatten, Source.ofChunks chunks, crc⟩ s).err = none ∧
    (StreamingUpload memDeps ftw
        ⟨sha256Hex chunks.flatten, Source.ofChunks chunks, crc⟩ s).blob.Size =
      chunks.flatten.length := by
  rw [StreamingUpload_absent ftw hftw chunks _ crc s (sha256Hex_ne_empty _) habs]
  simp only [if_true]
  exact ⟨trivial, trivial⟩

theorem size_accuracy_witness :
    ¬ sampleStore.Holds (sha256Hex ([] : List Bytes).flatten) ∧
    ((StreamingUpload memDeps MagicNumberChecker.unknown
        ⟨sha256Hex ([] : List Bytes).flatten, Source.ofChunks [], 0⟩ sampleStore).err = none ∧
    (StreamingUpload memDeps MagicNumberChecker.unknown
        ⟨sha256Hex ([] : List Bytes).flatten, Source.ofChunks [], 0⟩ sampleStore).blob.Size =
      ([] : List Bytes).flatten.length) :=
  ⟨sampleStore_not_Holds_nil,
    size_accuracy MagicNumberChecker.unknown unknown_Reliable [] 0 sampleStore
      sampleStore_not_Holds_nil⟩

/-- C5 (already exists is a skip). For every store that holds a record under the claimed
digest and every incoming stream: `StreamingUpload` returns `Blob{}` and a nil error. -/
theorem already_exists_is_skip {τ : Type} (ftw : MagicNumberChecker τ) (inp : IncomingBlob)
    (s : Memstore) (h : s.Holds inp.SHA256) :
    (StreamingUpload memDeps ftw inp s).blob = Blob.empty ∧
    (StreamingUpload memDeps ftw inp s).err = none := by
  rw [StreamingUpload_present ftw inp s h]
  exact ⟨rfl, rfl⟩

theorem already_exists_is_skip_witness :
    sampleStore.Holds sampleDigest ∧
    ((StreamingUpload memDeps MagicNumberChecker.unknown
        ⟨sampleDigest, ⟨[([9], none), ([], some (GoError.New "read failed"))], false⟩, 0⟩
        sampleStore).blob = Blob.empty ∧
    (StreamingUpload memDeps MagicNumberChecker.unknown
        ⟨sampleDigest, ⟨[([9], none), ([], some (GoError.New "read failed"))], false⟩, 0⟩
        sampleStore).err = none) :=
  ⟨sampleStore_Holds,
    already_exists_is_skip MagicNumberChecker.unknown
      ⟨sampleDigest, ⟨[([9], none), ([], some (GoError.New "read failed"))], false⟩, 0⟩
      sampleStore sampleStore_Holds⟩

/-- C6 (a lying upload never deletes a legitimate blob). For every store whose index gives
the record at `a`, with contents `c`, for the claimed digest, and every incoming stream:
`StreamingUpload` leaves the store exactly as it was, so the record is still found under the
digest and its contents are still `c`. -/
theorem lying_upload_keeps_blob {τ : Type} (ftw : MagicNumberChecker τ) (inp : IncomingBlob)
    (s : Memstore) (a : Nat) (c : Bytes) (hrec : Txn.First s inp.SHA256 = some a)
    (hc : (s.deref a).Contents = c) :
    (StreamingUpload memDeps ftw inp s).store = s ∧
    Txn.First (StreamingUpload memDeps ftw inp s).store inp.SHA256 = some a ∧
    ((StreamingUpload memDeps ftw inp s).store.deref a).Contents = c := by
  rw [StreamingUpload_present ftw inp s (Holds_of_First s _ a hrec)]
  exact ⟨rfl, hrec, hc⟩

theorem lying_upload_keeps_blob_witness :
    Txn.First sampleStore sampleDigest = some 0 ∧
    (sampleStore.deref 0).Contents = [1, 2, 3] ∧
    sha256Hex ([[9]] : List Bytes).flatten ≠ sampleDigest ∧
    ((StreamingUpload memDeps MagicNumberChecker.unknown
        ⟨sampleDigest, Source.ofChunks [[9]], 0⟩ sampleStore).store = sampleStore ∧
    Txn.First (StreamingUpload memDeps MagicNumberChecker.unknown
        ⟨sampleDigest, Source.ofChunks [[9]], 0⟩ sampleStore).store sampleDigest = some 0 ∧
    ((StreamingUpload memDeps MagicNumberChecker.unknown
        ⟨sampleDigest, Source.ofChunks [[9]], 0⟩ sampleStore).store.deref 0).Contents =
      [1, 2, 3]) :=
  ⟨sampleStore_First, rfl, by decide,
    lying_upload_keeps_blob MagicNumberChecker.unknown
      ⟨sampleDigest, Source.ofChunks [[9]], 0⟩ sampleStore 0 [1, 2, 3] sampleStore_First rfl⟩

/-- C7 (delete idempotence). `Delete(x)` on a store without a record under `x` returns nil
and leaves the store unchanged; and on every store that satisfies the representation
invariant, `Delete(x)` returns nil, and a second `Delete(x)` returns nil and leaves the store
as the first call left it. -/
theorem delete_idempotent (s : Memstore) (x : String) :
    (¬ s.Holds x → Memstore.Delete x s = (none, s)) ∧
    (s.WF → (Memstore.Delete x s).1 = none ∧
      Memstore.Delete x (Memstore.Delete x s).2 = (none, (Memstore.Delete x s).2)) :=
  ⟨Delete_absent x s, fun hwf =>
    ⟨Delete_nil x s hwf, Delete_absent x _ (not_Holds_after_Delete x s hwf)⟩⟩

theorem delete_idempotent_witness :
    (¬ NewMemstore.Holds sampleDigest ∧
      Memstore.Delete sampleDigest NewMemstore = (none, NewMemstore)) ∧
    (sampleStore.WF ∧ sampleStore.Holds sampleDigest ∧
      (Memstore.Delete sampleDigest sampleStore).1 = none ∧
      Memstore.Delete sampleDigest (Memstore.Delete sampleDigest sampleStore).2 =
        (none, (Memstore.Delete sampleDigest sampleStore).2)) :=
  ⟨⟨NewMemstore_not_Holds _,
      (delete_idempotent NewMemstore sampleDigest).1 (NewMemstore_not_Holds _)⟩,
    ⟨sampleStore_WF, sampleStore_Holds,
      (delete_idempotent sampleStore sampleDigest).2 sampleStore_WF⟩⟩

/-- C8 (the not-found sentinel). `Download(d)` returns the error `ErrHashNotFound` exactly
when no record exists under `d`, and then it returns no reader; and on a store that
satisfies the representation invariant, after `Delete(d)` returned nil, `Download(d)` returns
`ErrHashNotFound`. -/
theorem download_not_found_iff (s : Memstore) (d : String) :
    ((Memstore.Download d s).1.2 = some GoError.ErrHashNotFound ↔ ¬ s.Holds d) ∧
    (¬ s.Holds d → Memstore.Download d s = ((none, some GoError.ErrHashNotFound), s)) ∧
    (s.WF → (Memstore.Delete d s).1 = none →
      Memstore.Download d (Memstore.Delete d s).2 =
        ((none, some GoError.ErrHashNotFound), (Memstore.Delete d s).2)) := by
  refine ⟨⟨?_, fun h => by rw [Download_absent s d h]⟩, Download_absent s d,
    fun hwf _ => Download_absent _ d (not_Holds_after_Delete d s hwf)⟩
  intro h hh
  cases h1 : Txn.First s d with
  | none => exact (First_eq_none_iff s d).1 h1 hh
  | some a =>
    rw [Download_of_First s d a h1] at h
    cases h

theorem download_not_found_iff_witness :
    (¬ NewMemstore.Holds sampleDigest ∧
      Memstore.Download sampleDigest NewMemstore =
        ((none, some GoError.ErrHashNotFound), NewMemstore)) ∧
    (sampleStore.WF ∧ (Memstore.Delete sampleDigest sampleStore).1 = none ∧
      Memstore.Download sampleDigest (Memstore.Delete sampleDigest sampleStore).2 =
        ((none, some GoError.ErrHashNotFound), (Memstore.Delete sampleDigest sampleStore).2)) :=
  ⟨⟨NewMemstore_not_Holds _,
      (download_not_found_iff NewMemstore sampleDigest).2.1 (NewMemstore_not_Holds _)⟩,
    ⟨sampleStore_WF, by decide,
      (download_not_found_iff sampleStore sampleDigest).2.2 sampleStore_WF (by decide)⟩⟩

/-- C9 (sequential first writer wins), as amended. For a digest `d` that is not the empty
string and a store without a record under `d`, `Upload(d, crc)` returns a sink and a nil
error, and the store it leaves is the old one plus one new record under `d` with empty
contents; on a store with a record under `d` it returns `(nil, nil)` and leaves the store
unchanged; so a second `Upload(d)` after a first one on a store without `d` gets
`(nil, nil)`. -/
theorem upload_first_writer_wins (s : Memstore) (d : String) (crc : Nat) :
    (d ≠ "" → ¬ s.Holds d →
      Memstore.Upload d crc s =
        ((some (Memblob.sink s.heap.length), none),
          ⟨s.heap ++ [NewMemblob d []], (indexKey d, s.heap.length) :: s.blob⟩)) ∧
    (s.Holds d → Memstore.Upload d crc s = ((none, none), s)) ∧
    (d ≠ "" → ¬ s.Holds d → ∀ crc2,
      Memstore.Upload d crc2 (Memstore.Upload d crc s).2 =
        ((none, none), (Memstore.Upload d crc s).2)) := by
  refine ⟨Upload_absent d crc s, Upload_present d crc s, fun hd habs crc2 => ?_⟩
  apply Upload_present
  rw [Upload_absent d crc s hd habs]
  exact ⟨(indexKey d, s.heap.length), List.mem_cons_self _ _, rfl⟩

theorem upload_first_writer_wins_witness :
    (sampleDigest ≠ "" ∧ ¬ NewMemstore.Holds sampleDigest ∧
      Memstore.Upload sampleDigest 7 NewMemstore =
        ((some (Memblob.sink NewMemstore.heap.length), none),
          ⟨NewMemstore.heap ++ [NewMemblob sampleDigest []],
            (indexKey sampleDigest, NewMemstore.heap.length) :: NewMemstore.blob⟩)) ∧
    (sampleStore.Holds sampleDigest ∧
      Memstore.Upload sampleDigest 7 sampleStore = ((none, none), sampleStore)) ∧
    (∀ crc2, Memstore.Upload sampleDigest crc2 (Memstore.Upload sampleDigest 7 NewMemstore).2 =
        ((none, none), (Memstore.Upload sampleDigest 7 NewMemstore).2)) :=
  ⟨⟨sampleDigest_ne_empty, NewMemstore_not_Holds _,
      (upload_first_writer_wins NewMemstore sampleDigest 7).1 sampleDigest_ne_empty
        (NewMemstore_not_Holds _)⟩,
    ⟨sampleStore_Holds, (upload_first_writer_wins sampleStore sampleDigest 7).2.1 sampleStore_Holds⟩,
    (upload_first_writer_wins NewMemstore sampleDigest 7).2.2 sampleDigest_ne_empty
      (NewMemstore_not_Holds _)⟩

theorem upload_empty_digest_fails :
    ¬ NewMemstore.Holds "" ∧
    Memstore.Upload "" 0 NewMemstore =
      ((none, some (GoError.New "object missing primary index")), NewMemstore) ∧
    (Memstore.Upload "" 0 NewMemstore).1.2 ≠ none := by
  refine ⟨NewMemstore_not_Holds _, Upload_empty 0 NewMemstore (NewMemstore_not_Holds _), ?_⟩
  rw [Upload_empty 0 NewMemstore (NewMemstore_not_Holds _)]
  decide

/-- C10 (visibility of an open record), as amended. For every store without a record under a
digest `d` that is not the empty string: after `Upload(d)` returned its sink and the chunks
`ps` were written to it, and before `Close`, `Download(d)` returns a nil error and a reader
on that same record, and reading it to the end yields the bytes written so far. -/
theorem open_record_visible (s : Memstore) (d : String) (crc : Nat) (ps : List Bytes)
    (hd : d ≠ "") (habs : ¬ s.Holds d) :
    (Memstore.Upload d crc s).1 = (some (Memblob.sink s.heap.length), none) ∧
    Memstore.Download d (writeEach (Memblob.sink s.heap.length) ps (Memstore.Upload d crc s).2) =
      ((some (Memblob.reader s.heap.length), none),
        writeEach (Memblob.sink s.heap.length) ps (Memstore.Upload d crc s).2) ∧
    ∀ fuel, ps.flatten.length < fuel →
      ∃ s3, readAll (Memblob.reader s.heap.length) fuel
          (writeEach (Memblob.sink s.heap.length) ps (Memstore.Upload d crc s).2) [] =
        some ((ps.flatten, none), s3) := by
  rw [Upload_absent d crc s hd habs]
  have hw : writeEach (Memblob.sink s.heap.length) ps
      ⟨s.heap ++ [NewMemblob d []], (indexKey d, s.heap.length) :: s.blob⟩ =
      ⟨s.heap ++ [⟨d, ps.flatten, ps.flatten⟩], (indexKey d, s.heap.length) :: s.blob⟩ := by
    rw [writeEach_sink s.heap.length ps _ (by simp)]
    simp [Memstore.assign, Memstore.deref, NewMemblob]
  rw [hw]
  refine ⟨rfl, ?_, ?_⟩
  · exact Download_of_First _ _ _ (by simp [Txn.First])
  · intro fuel hf
    have h := readAll_reader s.heap.length fuel
      ⟨s.heap ++ [⟨d, ps.flatten, ps.flatten⟩], (indexKey d, s.heap.length) :: s.blob⟩ []
      (by simp) (by simpa [Memstore.deref] using hf)
    rw [h]
    simp [Memstore.deref]

theorem open_record_visible_witness :
    sampleDigest ≠ "" ∧ ¬ NewMemstore.Holds sampleDigest ∧
    ((Memstore.Upload sampleDigest 0 NewMemstore).1 =
      (some (Memblob.sink NewMemstore.heap.length), none) ∧
    Memstore.Download sampleDigest
        (writeEach (Memblob.sink NewMemstore.heap.length) [[1], [2]]
          (Memstore.Upload sampleDigest 0 NewMemstore).2) =
      ((some (Memblob.reader NewMemstore.heap.length), none),
        writeEach (Memblob.sink NewMemstore.heap.length) [[1], [2]]
          (Memstore.Upload sampleDigest 0 NewMemstore).2) ∧
    ∀ fuel, ([[1], [2]] : List Bytes).flatten.length < fuel →
      ∃ s3, readAll (Memblob.reader NewMemstore.heap.length) fuel
          (writeEach (Memblob.sink NewMemstore.heap.length) [[1], [2]]
            (Memstore.Upload sampleDigest 0 NewMemstore).2) [] =
        some ((([[1], [2]] : List Bytes).flatten, none), s3)) :=
  ⟨sampleDigest_ne_empty, NewMemstore_not_Holds _,
    open_record_visible NewMemstore sampleDigest 0 [[1], [2]] sampleDigest_ne_empty
      (NewMemstore_not_Holds _)⟩

theorem open_record_visible_before_close :
    ¬ NewMemstore.Holds sampleDigest ∧
    (Memstore.Upload sampleDigest 0 NewMemstore).1.1.isSome = true ∧
    (Memstore.Upload sampleDigest 0 NewMemstore).1.2 = none ∧
    (Memstore.Download sampleDigest
        (writeEach (Memblob.sink 0) [[1], [2]]
          (Memstore.Upload sampleDigest 0 NewMemstore).2)).1.2 = none ∧
    (Memstore.Download sampleDigest
        (writeEach (Memblob.sink 0) [[1], [2]]
          (Memstore.Upload sampleDigest 0 NewMemstore).2)).1.2 ≠
      some GoError.ErrHashNotFound ∧
    (readAll (Memblob.reader 0) 3
        (writeEach (Memblob.sink 0) [[1], [2]]
          (Memstore.Upload sampleDigest 0 NewMemstore).2) []).map (fun r => r.1) =
      some ([1, 2], none) := by
  refine ⟨NewMemstore_not_Holds _, by decide, by decide, by decide, by decide, by decide⟩

/-! ## Claims on reading back, failures and the incoming stream -/

/-- C11 (every Download starts at the beginning), as amended. For every store whose index
gives, for `d`, the record at `a` with contents `c` and with its read buffer at the start of
`c` (as `Close` leaves it): `Download(d)` returns that record and reading it to the end
yields all of `c`; a second `Download(d)` made after that reader was read to the end yields
no byte when `Close` was not called on it, and all of `c` again when `Close` was called. -/
theorem download_after_close (s : Memstore) (d : String) (a : Nat) (c : Bytes)
    (hrec : Txn.First s d = some a) (ha : a < s.heap.length)
    (hc : (s.deref a).Contents = c) (hb : (s.deref a).buf = c) :
    Memstore.Download d s = ((some (Memblob.reader a), none), s) ∧
    (∀ fuel, c.length < fuel →
      readAll (Memblob.reader a) fuel s [] =
        some ((c, none), s.assign a ⟨(s.deref a).ID, c, []⟩)) ∧
    Memstore.Download d (s.assign a ⟨(s.deref a).ID, c, []⟩) =
      ((some (Memblob.reader a), none), s.assign a ⟨(s.deref a).ID, c, []⟩) ∧
    (∀ fuel, 0 < fuel →
      readAll (Memblob.reader a) fuel (s.assign a ⟨(s.deref a).ID, c, []⟩) [] =
        some (([], none), s.assign a ⟨(s.deref a).ID, c, []⟩)) ∧
    ((Memblob.reader a).Close (s.assign a ⟨(s.deref a).ID, c, []⟩)).1 = none ∧
    Memstore.Download d ((Memblob.reader a).Close (s.assign a ⟨(s.deref a).ID, c, []⟩)).2 =
      ((some (Memblob.reader a), none),
        ((Memblob.reader a).Close (s.assign a ⟨(s.deref a).ID, c, []⟩)).2) ∧
    (∀ fuel, c.length < fuel →
      ∃ s3, readAll (Memblob.reader a) fuel
          ((Memblob.reader a).Close (s.assign a ⟨(s.deref a).ID, c, []⟩)).2 [] =
        some ((c, none), s3)) := by
  have hd2 : (s.assign a ⟨(s.deref a).ID, c, []⟩).deref a = ⟨(s.deref a).ID, c, []⟩ :=
    deref_assign_same _ _ _ ha
  have hF2 : Txn.First (s.assign a ⟨(s.deref a).ID, c, []⟩) d = some a := hrec
  have hcl : ((Memblob.reader a).Close (s.assign a ⟨(s.deref a).ID, c, []⟩)).2 =
      s.assign a ⟨(s.deref a).ID, c, c⟩ := by
    simp [Memblob.reader, Memblob.Close, hd2, assign_assign]
  refine ⟨Download_of_First s d a hrec, ?_, Download_of_First _ d a hF2, ?_, rfl, ?_, ?_⟩
  · intro fuel hf
    have h := readAll_reader a fuel s [] ha (by rw [hb]; exact hf)
    rw [h, hb, hc]
    simp
  · intro fuel hf
    have h := readAll_reader a fuel (s.assign a ⟨(s.deref a).ID, c, []⟩) []
      (by rw [assign_heap_length]; exact ha) (by rw [hd2]; exact hf)
    rw [h, hd2, assign_assign]
    simp
  · rw [hcl]
    exact Download_of_First _ d a hrec
  · intro fuel hf
    rw [hcl]
    have hd3 : (s.assign a ⟨(s.deref a).ID, c, c⟩).deref a = ⟨(s.deref a).ID, c, c⟩ :=
      deref_assign_same _ _ _ ha
    have h := readAll_reader a fuel (s.assign a ⟨(s.deref a).ID, c, c⟩) []
      (by rw [assign_heap_length]; exact ha) (by rw [hd3]; exact hf)
    rw [h, hd3]
    simp

theorem download_after_close_witness :
    Txn.First sampleStore sampleDigest = some 0 ∧ 0 < sampleStore.heap.length ∧
    (sampleStore.deref 0).Contents = [1, 2, 3] ∧ (sampleStore.deref 0).buf = [1, 2, 3] ∧
    (Memstore.Download sampleDigest sampleStore = ((some (Memblob.reader 0), none), sampleStore) ∧
    (∀ fuel, ([1, 2, 3] : Bytes).length < fuel →
      readAll (Memblob.reader 0) fuel sampleStore [] =
        some (([1, 2, 3], none),
          sampleStore.assign 0 ⟨(sampleStore.deref 0).ID, [1, 2, 3], []⟩)) ∧
    Memstore.Download sampleDigest
        (sampleStore.assign 0 ⟨(sampleStore.deref 0).ID, [1, 2, 3], []⟩) =
      ((some (Memblob.reader 0), none),
        sampleStore.assign 0 ⟨(sampleStore.deref 0).ID, [1, 2, 3], []⟩) ∧
    (∀ fuel, 0 < fuel →
      readAll (Memblob.reader 0) fuel
          (sampleStore.assign 0 ⟨(sampleStore.deref 0).ID, [1, 2, 3], []⟩) [] =
        some (([], none), sampleStore.assign 0 ⟨(sampleStore.deref 0).ID, [1, 2, 3], []⟩)) ∧
    ((Memblob.reader 0).Close
        (sampleStore.assign 0 ⟨(sampleStore.deref 0).ID, [1, 2, 3], []⟩)).1 = none ∧
    Memstore.Download sampleDigest
        ((Memblob.reader 0).Close
          (sampleStore.assign 0 ⟨(sampleStore.deref 0).ID, [1, 2, 3], []⟩)).2 =
      ((some (Memblob.reader 0), none),
        ((Memblob.reader 0).Close
          (sampleStore.assign 0 ⟨(sampleStore.deref 0).ID, [1, 2, 3], []⟩)).2) ∧
    (∀ fuel, ([1, 2, 3] : Bytes).length < fuel →
      ∃ s3, readAll (Memblob.reader 0) fuel
          ((Memblob.reader 0).Close
            (sampleStore.assign 0 ⟨(sampleStore.deref 0).ID, [1, 2, 3], []⟩)).2 [] =
        some (([1, 2, 3], none), s3))) :=
  ⟨sampleStore_First, by decide, rfl, rfl,
    download_after_close sampleStore sampleDigest 0 [1, 2, 3] sampleStore_First (by decide)
      rfl rfl⟩

theorem second_download_reads_nothing :
    Txn.First sampleStore sampleDigest = some 0 ∧
    (sampleStore.deref 0).Contents = [1, 2, 3] ∧
    readAll (Memblob.reader 0) 4 sampleStore [] =
      some (([1, 2, 3], none), ⟨[⟨sampleDigest, [1, 2, 3], []⟩], [(sampleDigest, 0)]⟩) ∧
    (Memstore.Download sampleDigest
      ⟨[⟨sampleDigest, [1, 2, 3], []⟩], [(sampleDigest, 0)]⟩).1.1.isSome = true ∧
    (Memstore.Download sampleDigest
      ⟨[⟨sampleDigest, [1, 2, 3], []⟩], [(sampleDigest, 0)]⟩).1.2 = none ∧
    Txn.First ⟨[⟨sampleDigest, [1, 2, 3], []⟩], [(sampleDigest, 0)]⟩ sampleDigest = some 0 ∧
    readAll (Memblob.reader 0) 4 ⟨[⟨sampleDigest, [1, 2, 3], []⟩], [(sampleDigest, 0)]⟩ [] =
      some (([], none), ⟨[⟨sampleDigest, [1, 2, 3], []⟩], [(sampleDigest, 0)]⟩) ∧
    readAll (Memblob.reader 0) 4 ⟨[⟨sampleDigest, [1, 2, 3], []⟩], [(sampleDigest, 0)]⟩ [] ≠
      some (([1, 2, 3], none), ⟨[⟨sampleDigest, [1, 2, 3], []⟩], [(sampleDigest, 0)]⟩) := by
  refine ⟨sampleStore_First, rfl, by decide, by decide, by decide, by decide, by decide,
    by decide⟩

/-- C12 (transfer failure), the code at the failing input: on the empty store, with the
digest of `1, 2, 3` claimed and a stream that hands out the byte `1` and then fails,
`StreamingUpload` returns the read error, and afterwards `Download` of that digest returns a
reader and a nil error, the reader yields the byte `1`, and `Upload` of that digest returns
`(nil, nil)`. -/
theorem transfer_failure_leaves_record :
    ¬ NewMemstore.Holds sampleDigest ∧
    (StreamingUpload memDeps MagicNumberChecker.unknown ⟨sampleDigest, failingSource, 0⟩
      NewMemstore).err = some (GoError.New "read failed") ∧
    (Memstore.Download sampleDigest
      (StreamingUpload memDeps MagicNumberChecker.unknown ⟨sampleDigest, failingSource, 0⟩
        NewMemstore).store).1.1.isSome = true ∧
    (Memstore.Download sampleDigest
      (StreamingUpload memDeps MagicNumberChecker.unknown ⟨sampleDigest, failingSource, 0⟩
        NewMemstore).store).1.2 = none ∧
    (readAll (Memblob.reader 0) 2
      (StreamingUpload memDeps MagicNumberChecker.unknown ⟨sampleDigest, failingSource, 0⟩
        NewMemstore).store []).map (fun r => r.1) = some ([1], none) ∧
    (Memstore.Upload sampleDigest 0
      (StreamingUpload memDeps MagicNumberChecker.unknown ⟨sampleDigest, failingSource, 0⟩
        NewMemstore).store).1.1.isNone = true ∧
    (Memstore.Upload sampleDigest 0
      (StreamingUpload memDeps MagicNumberChecker.unknown ⟨sampleDigest, failingSource, 0⟩
        NewMemstore).store).1.2 = none := by
  refine ⟨NewMemstore_not_Holds _, by decide, by decide, by decide, by decide, by decide,
    by decide⟩

theorem sample_Upload_zero :
    Memstore.Upload sampleDigest 0 NewMemstore =
      ((some (Memblob.sink 0), none), ⟨[NewMemblob sampleDigest []], [(sampleDigest, 0)]⟩) := by
  have h := Upload_absent sampleDigest 0 NewMemstore sampleDigest_ne_empty
    (NewMemstore_not_Holds _)
  simpa [NewMemstore, indexKey_sampleDigest] using h

/-- C13 (cleanup failure), as amended. For every `Storer`: when the sink was obtained, the
copy and both finalizations succeeded, the computed digest differs from the claimed one and
`Delete` fails with `e`, `StreamingUpload` returns the empty `Blob` and exactly the error `e`
of `Delete`, and leaves the backend as `Delete` left it. -/
theorem cleanup_failure_returns_delete_error {σ τ : Type} (d : Dependencies σ)
    (ftw : MagicNumberChecker τ) (inp : IncomingBlob) (s : σ) (w : WriteCloser σ) (s1 : σ)
    (size : Nat) (rest : List (Bytes × Option GoError)) (t : τ) (hashed : Bytes) (s2 : σ)
    (t1 : τ) (s3 : σ) (e : GoError) (s4 : σ)
    (hup : d.Storer.Upload inp.SHA256 inp.CRC32C s = ((some w, none), s1))
    (hcopy : copyLoop (multiWrite (fanOut ftw w)) inp.Data.reads 0 (ftw.init, [], s1) =
      ((size, none), rest, (t, hashed, s2)))
    (hfc : ftw.Close t = (none, t1)) (hwc : w.Close s2 = (none, s3))
    (hsum : hexEncodeToString (sha256Sum hashed) ≠ inp.SHA256)
    (hdel : d.Storer.Delete inp.SHA256 s3 = (some e, s4)) :
    (StreamingUpload d ftw inp s).err = some e ∧
    (StreamingUpload d ftw inp s).blob = Blob.empty ∧
    (StreamingUpload d ftw inp s).store = s4 := by
  rw [StreamingUpload_copied d ftw inp s w s1 size rest t hashed s2 t1 s3 hup hcopy hfc hwc]
  simp [hsum, hdel]

theorem cleanup_failure_returns_delete_error_witness :
    (Dependencies.mk brokenDeleteStorer).Storer.Upload sampleDigest 0 NewMemstore =
      ((some (Memblob.sink 0), none), ⟨[NewMemblob sampleDigest []], [(sampleDigest, 0)]⟩) ∧
    hexEncodeToString (sha256Sum [9]) ≠ sampleDigest ∧
    (Dependencies.mk brokenDeleteStorer).Storer.Delete sampleDigest
        ⟨[⟨sampleDigest, [9], [9]⟩], [(sampleDigest, 0)]⟩ =
      (some (GoError.New "delete failed"), ⟨[⟨sampleDigest, [9], [9]⟩], [(sampleDigest, 0)]⟩) ∧
    ((StreamingUpload (Dependencies.mk brokenDeleteStorer) MagicNumberChecker.unknown
        ⟨sampleDigest, Source.ofChunks [[9]], 0⟩ NewMemstore).err =
      some (GoError.New "delete failed") ∧
    (StreamingUpload (Dependencies.mk brokenDeleteStorer) MagicNumberChecker.unknown
        ⟨sampleDigest, Source.ofChunks [[9]], 0⟩ NewMemstore).blob = Blob.empty ∧
    (StreamingUpload (Dependencies.mk brokenDeleteStorer) MagicNumberChecker.unknown
        ⟨sampleDigest, Source.ofChunks [[9]], 0⟩ NewMemstore).store =
      ⟨[⟨sampleDigest, [9], [9]⟩], [(sampleDigest, 0)]⟩) :=
  ⟨sample_Upload_zero, by decide, rfl,
    cleanup_failure_returns_delete_error (Dependencies.mk brokenDeleteStorer)
      MagicNumberChecker.unknown ⟨sampleDigest, Source.ofChunks [[9]], 0⟩ NewMemstore
      (Memblob.sink 0) ⟨[NewMemblob sampleDigest []], [(sampleDigest, 0)]⟩ 1 [] () [9]
      ⟨[⟨sampleDigest, [9], [9]⟩], [(sampleDigest, 0)]⟩ ()
      ⟨[⟨sampleDigest, [9], [9]⟩], [(sampleDigest, 0)]⟩ (GoError.New "delete failed")
      ⟨[⟨sampleDigest, [9], [9]⟩], [(sampleDigest, 0)]⟩
      sample_Upload_zero (by decide) rfl (by decide) (by decide) rfl⟩

theorem cleanup_failure_masks_mismatch :
    (StreamingUpload (Dependencies.mk brokenDeleteStorer) MagicNumberChecker.unknown
        ⟨sampleDigest, Source.ofChunks [[9]], 0⟩ NewMemstore).err =
      (brokenDeleteStorer.Delete sampleDigest
        ⟨[⟨sampleDigest, [9], [9]⟩], [(sampleDigest, 0)]⟩).1 ∧
    (StreamingUpload (Dependencies.mk brokenDeleteStorer) MagicNumberChecker.unknown
        ⟨sampleDigest, Source.ofChunks [[9]], 0⟩ NewMemstore).err =
      some (GoError.New "delete failed") ∧
    sha256Hex [9] ≠ sampleDigest := by
  refine ⟨by decide, by decide, by decide⟩

/-- C14 (the incoming stream is closed on every exit path). For every `Storer`, sniffer,
input and state, `Close` has been called on `in.Data` when `StreamingUpload` returns. -/
theorem data_closed_on_every_path {σ τ : Type} (d : Dependencies σ) (ftw : MagicNumberChecker τ)
    (inp : IncomingBlob) (s : σ) : (StreamingUpload d ftw inp s).data.closed = true := by
  rcases hup : d.Storer.Upload inp.SHA256 inp.CRC32C s with ⟨⟨ow, oe⟩, s1⟩
  cases oe with
  | some e => simp [StreamingUpload, hup, Source.Close]
  | none =>
    cases ow with
    | none => simp [StreamingUpload, hup, Source.Close]
    | some w =>
      rcases hcl : copyLoop (multiWrite (fanOut ftw w)) inp.Data.reads 0 (ftw.init, [], s1) with
        ⟨⟨size, e⟩, rest, t, hashed, s2⟩
      cases e with
      | some e => simp [StreamingUpload, hup, ioCopy, hcl, Source.Close]
      | none =>
        rcases hfc : ftw.Close t with ⟨e1, t1⟩
        cases e1 with
        | some e => simp [StreamingUpload, hup, ioCopy, hcl, hfc, Source.Close]
        | none =>
          rcases hwc : w.Close s2 with ⟨e2, s3⟩
          cases e2 with
          | some e => simp [StreamingUpload, hup, ioCopy, hcl, hfc, hwc, Source.Close]
          | none =>
            rw [StreamingUpload_copied d ftw inp s w s1 size rest t hashed s2 t1 s3 hup hcl hfc hwc]
            by_cases hsum : hexEncodeToString (sha256Sum hashed) = inp.SHA256
            · simp [hsum]
            · rcases hdel : d.Storer.Delete inp.SHA256 s3 with ⟨e3, s4⟩
              cases e3 <;> simp [hsum, hdel]

theorem copyLoop_rest {σ τ : Type} (ftw : MagicNumberChecker τ) (w : WriteCloser σ)
    (reads : List (Bytes × Option GoError)) :
    ∀ (n : Nat) (t : τ) (h : Bytes) (s : σ) (n2 : Nat)
      (rest : List (Bytes × Option GoError)) (st2 : τ × Bytes × σ),
      copyLoop (multiWrite (fanOut ftw w)) reads n (t, h, s) = ((n2, none), rest, st2) →
      rest = restAfter reads := by
  induction reads with
  | nil =>
    intro n t h s n2 rest st2 hc
    simp [copyLoop] at hc
    simp [restAfter, hc.2.1.symm]
  | cons x reads ih =>
    obtain ⟨p, er⟩ := x
    intro n t h s n2 rest st2 hc
    by_cases hp : p = []
    · subst hp
      cases er with
      | some e =>
        simp [copyLoop] at hc
        simp [restAfter, hc.2.1.symm]
      | none =>
        simp [copyLoop] at hc
        simpa [restAfter] using ih n t h s n2 rest st2 hc
    · have hlen : p.length > 0 := List.length_pos.2 hp
      rcases hm : multiWrite (fanOut ftw w) p (t, h, s) with ⟨⟨nw, ew⟩, st1⟩
      cases ew with
      | some e => simp [copyLoop, hlen, hm] at hc
      | none =>
        obtain ⟨hnw, hst1⟩ := multiWrite_fanOut_ok ftw w p t h s nw st1 hm
        subst hnw
        cases er with
        | some e =>
          simp [copyLoop, hlen, hm] at hc
          simp [restAfter, hc.2.1.symm]
        | none =>
          simp [copyLoop, hlen, hm, hst1] at hc
          simpa [restAfter] using ih _ _ _ _ n2 rest st2 hc

/-- C15 (draining of the incoming stream), as amended. For every `Storer`, sniffer, input
and state: when `Upload` returns an error or no sink, `StreamingUpload` reads nothing from
`in.Data`; when it returns a sink and `io.Copy` returns without error, `in.Data` has been
read up to and including its end of stream. -/
theorem data_drained_when_copied {σ τ : Type} (d : Dependencies σ) (ftw : MagicNumberChecker τ)
    (inp : IncomingBlob) (s : σ) :
    (∀ ow oe s1, d.Storer.Upload inp.SHA256 inp.CRC32C s = ((ow, oe), s1) →
      (oe ≠ none ∨ ow = none) →
      (StreamingUpload d ftw inp s).data.reads = inp.Data.reads) ∧
    (∀ w s1, d.Storer.Upload inp.SHA256 inp.CRC32C s = ((some w, none), s1) →
      (ioCopy (multiWrite (fanOut ftw w)) inp.Data (ftw.init, [], s1)).1.2 = none →
      (StreamingUpload d ftw inp s).data.reads = restAfter inp.Data.reads) := by
  constructor
  · intro ow oe s1 hup h
    cases oe with
    | some e => simp [StreamingUpload, hup, Source.Close]
    | none =>
      rcases h with h | h
      · exact absurd rfl h
      · subst h
        simp [StreamingUpload, hup, Source.Close]
  · intro w s1 hup hcopy
    rcases hcl : copyLoop (multiWrite (fanOut ftw w)) inp.Data.reads 0 (ftw.init, [], s1) with
      ⟨⟨size, e⟩, rest, t, hashed, s2⟩
    simp only [ioCopy, hcl] at hcopy
    subst hcopy
    have hrest := copyLoop_rest ftw w inp.Data.reads 0 ftw.init [] s1 size rest _ hcl
    rcases hfc : ftw.Close t with ⟨e1, t1⟩
    cases e1 with
    | some e => simp [StreamingUpload, hup, ioCopy, hcl, hfc, Source.Close, hrest]
    | none =>
      rcases hwc : w.Close s2 with ⟨e2, s3⟩
      cases e2 with
      | some e => simp [StreamingUpload, hup, ioCopy, hcl, hfc, hwc, Source.Close, hrest]
      | none =>
        rw [StreamingUpload_copied d ftw inp s w s1 size rest t hashed s2 t1 s3 hup hcl hfc hwc]
        by_cases hsum : hexEncodeToString (sha256Sum hashed) = inp.SHA256
        · simp [hsum, hrest]
        · rcases hdel : d.Storer.Delete inp.SHA256 s3 with ⟨e3, s4⟩
          cases e3 <;> simp [hsum, hdel, hrest]

theorem data_drained_when_copied_witness :
    (memDeps.Storer.Upload sampleDigest 0 sampleStore = ((none, none), sampleStore) ∧
      (StreamingUpload memDeps MagicNumberChecker.unknown
        ⟨sampleDigest, Source.ofChunks [[9]], 0⟩ sampleStore).data.reads =
        (Source.ofChunks [[9]]).reads) ∧
    (memDeps.Storer.Upload sampleDigest 7 NewMemstore =
        ((some (Memblob.sink 0), none), ⟨[NewMemblob sampleDigest []], [(sampleDigest, 0)]⟩) ∧
      (ioCopy (multiWrite (fanOut MagicNumberChecker.unknown (Memblob.sink 0)))
        (Source.ofChunks [[1], [2, 3]])
        (MagicNumberChecker.unknown.init, [],
          ⟨[NewMemblob sampleDigest []], [(sampleDigest, 0)]⟩)).1.2 = none ∧
      (StreamingUpload memDeps MagicNumberChecker.unknown
        ⟨sampleDigest, Source.ofChunks [[1], [2, 3]], 7⟩ NewMemstore).data.reads =
        restAfter (Source.ofChunks [[1], [2, 3]]).reads) :=
  ⟨⟨Upload_present sampleDigest 0 sampleStore sampleStore_Holds,
      (data_drained_when_copied memDeps MagicNumberChecker.unknown
        ⟨sampleDigest, Source.ofChunks [[9]], 0⟩ sampleStore).1 none none sampleStore
        (Upload_present sampleDigest 0 sampleStore sampleStore_Holds) (Or.inr rfl)⟩,
    ⟨sample_Upload, by decide,
      (data_drained_when_copied memDeps MagicNumberChecker.unknown
        ⟨sampleDigest, Source.ofChunks [[1], [2, 3]], 7⟩ NewMemstore).2 (Memblob.sink 0)
        ⟨[NewMemblob sampleDigest []], [(sampleDigest, 0)]⟩ sample_Upload (by decide)⟩⟩

theorem data_unread_on_early_return :
    sampleStore.Holds sampleDigest ∧
    (StreamingUpload memDeps MagicNumberChecker.unknown
      ⟨sampleDigest, Source.ofChunks [[9]], 0⟩ sampleStore).err = none ∧
    (StreamingUpload memDeps MagicNumberChecker.unknown
      ⟨sampleDigest, Source.ofChunks [[9]], 0⟩ sampleStore).data.reads = [([9], none)] ∧
    (copied (StreamingUpload memDeps MagicNumberChecker.unknown
      ⟨sampleDigest, Source.ofChunks [[9]], 0⟩ sampleStore).data.reads).flatten ≠ [] ∧
    (StreamingUpload memDeps MagicNumberChecker.unknown
      ⟨"", Source.ofChunks [[9]], 0⟩ NewMemstore).err ≠ none ∧
    (StreamingUpload memDeps MagicNumberChecker.unknown
      ⟨"", Source.ofChunks [[9]], 0⟩ NewMemstore).data.reads = [([9], none)] := by
  refine ⟨sampleStore_Holds, by decide, by decide, by decide, by decide, by decide⟩

/-! ## Claims on the Memblob, the invariant and the index keys -/

/-- C17 (Memblob sink semantics). For the `Memblob` made by `NewMemblob(id, in)` (allocated
in any store) and every sequence of chunks: each `Write(p)` returns `(len(p), nil)`; after
the writes `Contents` is `in` followed by the chunks; `Close` returns nil and leaves
`Contents` unchanged; after `Close`, reading to the end of the stream yields exactly
`Contents`; and a second `Close` changes nothing. -/
theorem memblob_sink_semantics (s : Memstore) (id : String) (inp : Bytes) (ps : List Bytes) :
    (∀ p st, ((Memblob.sink s.heap.length).Write p st).1 = (p.length, none)) ∧
    ((writeEach (Memblob.sink s.heap.length) ps
      (s.alloc (NewMemblob id inp)).2).deref s.heap.length).Contents = inp ++ ps.flatten ∧
    ((Memblob.sink s.heap.length).Close
      (writeEach (Memblob.sink s.heap.length) ps (s.alloc (NewMemblob id inp)).2)).1 = none ∧
    (((Memblob.sink s.heap.length).Close
      (writeEach (Memblob.sink s.heap.length) ps
        (s.alloc (NewMemblob id inp)).2)).2.deref s.heap.length).Contents = inp ++ ps.flatten ∧
    (∀ fuel, (inp ++ ps.flatten).length < fuel →
      ∃ s3, readAll (Memblob.reader s.heap.length) fuel
          ((Memblob.sink s.heap.length).Close
            (writeEach (Memblob.sink s.heap.length) ps (s.alloc (NewMemblob id inp)).2)).2 [] =
        some ((inp ++ ps.flatten, none), s3)) ∧
    (Memblob.sink s.heap.length).Close
        ((Memblob.sink s.heap.length).Close
          (writeEach (Memblob.sink s.heap.length) ps (s.alloc (NewMemblob id inp)).2)).2 =
      (none, ((Memblob.sink s.heap.length).Close
          (writeEach (Memblob.sink s.heap.length) ps (s.alloc (NewMemblob id inp)).2)).2) := by
  have hw : writeEach (Memblob.sink s.heap.length) ps (s.alloc (NewMemblob id inp)).2 =
      ⟨s.heap ++ [⟨id, inp ++ ps.flatten, inp ++ ps.flatten⟩], s.blob⟩ := by
    rw [writeEach_sink s.heap.length ps _ (by simp [Memstore.alloc])]
    simp [Memstore.alloc, Memstore.assign, Memstore.deref, NewMemblob]
  have hcl : (Memblob.sink s.heap.length).Close
      ⟨s.heap ++ [⟨id, inp ++ ps.flatten, inp ++ ps.flatten⟩], s.blob⟩ =
      (none, ⟨s.heap ++ [⟨id, inp ++ ps.flatten, inp ++ ps.flatten⟩], s.blob⟩) := by
    simp [Memblob.sink, Memblob.Close, Memstore.assign, Memstore.deref]
  rw [hw, hcl]
  refine ⟨fun _ _ => rfl, by simp [Memstore.deref], rfl, by simp [Memstore.deref], ?_, hcl⟩
  intro fuel hf
  have h := readAll_reader s.heap.length fuel
    ⟨s.heap ++ [⟨id, inp ++ ps.flatten, inp ++ ps.flatten⟩], s.blob⟩ [] (by simp)
    (by simpa [Memstore.deref] using hf)
  rw [h]
  simp [Memstore.deref]

theorem memblob_sink_semantics_witness :
    ((Memblob.sink NewMemstore.heap.length).Write [2] NewMemstore).1 = (1, none) ∧
    ((writeEach (Memblob.sink NewMemstore.heap.length) [[2], [3]]
      (NewMemstore.alloc (NewMemblob sampleDigest [1])).2).deref
        NewMemstore.heap.length).Contents = [1, 2, 3] ∧
    (∃ s3, readAll (Memblob.reader NewMemstore.heap.length) 4
        ((Memblob.sink NewMemstore.heap.length).Close
          (writeEach (Memblob.sink NewMemstore.heap.length) [[2], [3]]
            (NewMemstore.alloc (NewMemblob sampleDigest [1])).2)).2 [] =
      some (([1, 2, 3], none), s3)) :=
  ⟨(memblob_sink_semantics NewMemstore sampleDigest [1] [[2], [3]]).1 [2] NewMemstore,
    (memblob_sink_semantics NewMemstore sampleDigest [1] [[2], [3]]).2.1,
    (memblob_sink_semantics NewMemstore sampleDigest [1] [[2], [3]]).2.2.2.2.1 4 (by decide)⟩

theorem copyLoop_noFail {σ τ : Type} (ftw : MagicNumberChecker τ) (w : WriteCloser σ)
    (hftw : ftw.Reliable) (hw : ∀ p s, (w.Write p s).1 = (p.length, none))
    (reads : List (Bytes × Option GoError)) :
    (∀ x ∈ reads, x.2 = none ∨ x.2 = some GoError.EOF) →
    ∀ (n : Nat) (t : τ) (h : Bytes) (s : σ),
      copyLoop (multiWrite (fanOut ftw w)) reads n (t, h, s) =
        ((n + (copied reads).flatten.length, none), restAfter reads,
          (sniffAll ftw (copied reads) t, h ++ (copied reads).flatten,
            writeAll w (copied reads) s)) := by
  induction reads with
  | nil => intro _ n t h s; simp [copyLoop, copied, restAfter, sniffAll, writeAll]
  | cons x reads ih =>
    obtain ⟨p, er⟩ := x
    intro hnf n t h s
    have hnf2 : ∀ x ∈ reads, x.2 = none ∨ x.2 = some GoError.EOF :=
      fun x hx => hnf x (List.mem_cons_of_mem _ hx)
    have her : er = none ∨ er = some GoError.EOF := hnf (p, er) (List.mem_cons_self _ _)
    by_cases hp : p = []
    · subst hp
      rcases her with rfl | rfl
      · simp [copyLoop, copied, restAfter, sniffAll, writeAll, ih hnf2]
      · simp [copyLoop, copied, restAfter, sniffAll, writeAll]
    · have hlen : p.length > 0 := List.length_pos.2 hp
      rcases her with rfl | rfl
      · simp [copyLoop, hlen, multiWrite_fanOut_reliable ftw w hftw hw, ih hnf2, copied,
          restAfter, sniffAll, writeAll, hp, Nat.add_assoc]
      · simp [copyLoop, hlen, multiWrite_fanOut_reliable ftw w hftw hw, copied,
          restAfter, sniffAll, writeAll, hp]

theorem StreamingUpload_noFail {τ : Type} (ftw : MagicNumberChecker τ) (hftw : ftw.Reliable)
    (src : Source) (hsrc : src.NoFail) (d : String) (crc : Nat) (s : Memstore) (hd : d ≠ "")
    (habs : ¬ s.Holds d) :
    StreamingUpload memDeps ftw ⟨d, src, crc⟩ s =
      if sha256Hex (copied src.reads).flatten = d then
        ⟨⟨sha256Hex (copied src.reads).flatten, (copied src.reads).flatten.length,
            ftw.MatchedMIME (ftw.Close (sniffAll ftw (copied src.reads) ftw.init)).2⟩, none,
          ⟨s.heap ++ [⟨d, (copied src.reads).flatten, (copied src.reads).flatten⟩],
            (indexKey d, s.heap.length) :: s.blob⟩,
          ⟨restAfter src.reads, true⟩⟩
      else
        ⟨Blob.empty, some (GoError.New "supplied hash did not match file hash"),
          ⟨s.heap ++ [⟨d, (copied src.reads).flatten, (copied src.reads).flatten⟩], s.blob⟩,
          ⟨restAfter src.reads, true⟩⟩ := by
  have hup : memDeps.Storer.Upload d crc s = _ := Upload_absent d crc s hd habs
  have hcopy := copyLoop_noFail ftw (Memblob.sink s.heap.length) hftw
    (sink_Write_fst s.heap.length) src.reads hsrc 0 ftw.init []
    ⟨s.heap ++ [NewMemblob d []], (indexKey d, s.heap.length) :: s.blob⟩
  have hwr := writeAll_sink s.heap.length (copied src.reads)
    ⟨s.heap ++ [NewMemblob d []], (indexKey d, s.heap.length) :: s.blob⟩ (by simp)
  rw [hwr] at hcopy
  have hcl : (ftw.Close (sniffAll ftw (copied src.reads) ftw.init)).1 = none := hftw.2 _
  have hlk : s.blob.lookup (indexKey d) = none := (First_eq_none_iff s d).2 habs
  have hfc : ftw.Close (sniffAll ftw (copied src.reads) ftw.init) =
      (none, (ftw.Close (sniffAll ftw (copied src.reads) ftw.init)).2) := by
    rw [← hcl]
  have hst : (Memstore.mk (s.heap ++ [NewMemblob d []])
      ((indexKey d, s.heap.length) :: s.blob)).assign s.heap.length
        ⟨d, (copied src.reads).flatten, (copied src.reads).flatten⟩ =
      ⟨s.heap ++ [⟨d, (copied src.reads).flatten, (copied src.reads).flatten⟩],
        (indexKey d, s.heap.length) :: s.blob⟩ := by
    simp [Memstore.assign]
  have hwc : (Memblob.sink s.heap.length).Close
      ⟨s.heap ++ [⟨d, (copied src.reads).flatten, (copied src.reads).flatten⟩],
        (indexKey d, s.heap.length) :: s.blob⟩ =
      (none, ⟨s.heap ++ [⟨d, (copied src.reads).flatten, (copied src.reads).flatten⟩],
        (indexKey d, s.heap.length) :: s.blob⟩) := by
    simp [Memblob.sink, Memblob.Close, Memstore.assign, Memstore.deref]
  have hcopy2 : copyLoop (multiWrite (fanOut ftw (Memblob.sink s.heap.length)))
      (IncomingBlob.mk d src crc).Data.reads 0 (ftw.init, [],
        ⟨s.heap ++ [NewMemblob d []], (indexKey d, s.heap.length) :: s.blob⟩) =
      ((( copied src.reads).flatten.length, none), restAfter src.reads,
        (sniffAll ftw (copied src.reads) ftw.init, (copied src.reads).flatten,
        ⟨s.heap ++ [⟨d, (copied src.reads).flatten, (copied src.reads).flatten⟩],
          (indexKey d, s.heap.length) :: s.blob⟩)) := by
    rw [hcopy, ← hst]
    simp [Memstore.deref, NewMemblob]
  rw [StreamingUpload_copied memDeps ftw ⟨d, src, crc⟩ s _ _ _ _ _ _ _ _ _
    hup hcopy2 hfc hwc]
  by_cases hsum : sha256Hex (copied src.reads).flatten = d
  · have hsum2 : hexEncodeToString (sha256Sum (copied src.reads).flatten) = d := hsum
    simp [hsum, hsum2]
  · have hsum2 : ¬ hexEncodeToString (sha256Sum (copied src.reads).flatten) = d := hsum
    have hdel : memDeps.Storer.Delete d
        ⟨s.heap ++ [⟨d, (copied src.reads).flatten, (copied src.reads).flatten⟩],
          (indexKey d, s.heap.length) :: s.blob⟩ = _ :=
      Delete_fresh d s.heap s.blob (copied src.reads).flatten (copied src.reads).flatten hd hlk
    simp [hsum, hsum2, hdel]

theorem StreamingUpload_empty_digest {τ : Type} (ftw : MagicNumberChecker τ) (src : Source)
    (crc : Nat) (s : Memstore) (habs : ¬ s.Holds "") :
    StreamingUpload memDeps ftw ⟨"", src, crc⟩ s =
      ⟨Blob.empty, some (GoError.New "object missing primary index"), s, src.Close⟩ := by
  have hup : memDeps.Storer.Upload "" crc s = _ := Upload_empty crc s habs
  simp only [StreamingUpload, hup]

theorem CA_append (heap : List Memblob) (blob : List (String × Nat)) (m : Memblob)
    (hwf : (Memstore.mk heap blob).WF) (hca : (Memstore.mk heap blob).ContentAddressed) :
    (Memstore.mk (heap ++ [m]) blob).ContentAddressed := by
  intro k a hm
  rw [deref_append_lt heap blob blob m a (hwf k a hm).1]
  exact hca k a hm

theorem CA_StreamingUpload {τ : Type} (ftw : MagicNumberChecker τ) (hftw : ftw.Reliable)
    (inp : IncomingBlob) (hsrc : inp.Data.NoFail) (s : Memstore) (hwf : s.WF)
    (hca : s.ContentAddressed) :
    (StreamingUpload memDeps ftw inp s).store.ContentAddressed := by
  obtain ⟨d, src, crc⟩ := inp
  by_cases hh : s.Holds d
  · rw [StreamingUpload_present ftw ⟨d, src, crc⟩ s hh]; exact hca
  · by_cases hd : d = ""
    · subst hd
      rw [StreamingUpload_empty_digest ftw src crc s hh]; exact hca
    · rw [StreamingUpload_noFail ftw hftw src hsrc d crc s hd hh]
      have hca2 := CA_append s.heap s.blob
        ⟨d, (copied src.reads).flatten, (copied src.reads).flatten⟩ hwf hca
      by_cases hsum : sha256Hex (copied src.reads).flatten = d
      · simp only [hsum, if_true]
        intro k a hm
        rcases List.mem_cons.1 hm with h2 | h2
        · injection h2 with hk ha
          subst hk; subst ha
          simp [Memstore.deref, hsum]
        · have h3 := hca2 k a h2
          exact h3
      · simp only [hsum, if_false]
        exact hca2

theorem CA_Delete (d : String) (s : Memstore) (hwf : s.WF) (hca : s.ContentAddressed) :
    (Memstore.Delete d s).2.ContentAddressed := by
  by_cases hh : s.Holds d
  · rw [Delete_present d s hwf hh]
    intro k a hm
    exact hca k a (List.mem_filter.1 hm).1
  · rw [Delete_absent d s hh]; exact hca

theorem Ingested_WF_CA (s : Memstore) (h : s.Ingested) : s.WF ∧ s.ContentAddressed := by
  induction h with
  | init => exact ⟨WF_NewMemstore, fun k a hm => by cases hm⟩
  | upload ftw inp s hftw hsrc _ ih =>
    exact ⟨WF_StreamingUpload ftw inp s ih.1, CA_StreamingUpload ftw hftw inp hsrc s ih.1 ih.2⟩
  | delete d s _ ih => exact ⟨WF_Delete d s ih.1, CA_Delete d s ih.1 ih.2⟩

/-- C18 (content-address invariant). In every store reached from the empty store by calls
of `StreamingUpload` whose stream and sniffer do not fail and by calls of `Delete`, every
record of the index satisfies `hex(sha256(Contents)) = ID`; and the record found under a
digest `d` has an ID with the key of `d`. -/
theorem content_address_invariant (s : Memstore) (h : s.Ingested) :
    (∀ k a, (k, a) ∈ s.blob → sha256Hex (s.deref a).Contents = (s.deref a).ID) ∧
    (∀ d a, Txn.First s d = some a →
      sha256Hex (s.deref a).Contents = (s.deref a).ID ∧
        indexKey (s.deref a).ID = indexKey d) :=
  ⟨fun k a hm => ((Ingested_WF_CA s h).2 k a hm).1,
    fun d a hF => (Ingested_WF_CA s h).2 (indexKey d) a (lookup_some_mem _ _ _ hF)⟩

theorem ofChunks_NoFail (chunks : List Bytes) : (Source.ofChunks chunks).NoFail := by
  intro x hx
  simp only [Source.ofChunks, List.mem_map] at hx
  obtain ⟨p, _, rfl⟩ := hx
  exact Or.inl rfl

theorem content_address_invariant_witness :
    (StreamingUpload memDeps MagicNumberChecker.unknown
      ⟨sampleDigest, Source.ofChunks [[1], [2, 3]], 7⟩ NewMemstore).store.Ingested ∧
    ((∀ k a, (k, a) ∈ (StreamingUpload memDeps MagicNumberChecker.unknown
        ⟨sampleDigest, Source.ofChunks [[1], [2, 3]], 7⟩ NewMemstore).store.blob →
      sha256Hex ((StreamingUpload memDeps MagicNumberChecker.unknown
        ⟨sampleDigest, Source.ofChunks [[1], [2, 3]], 7⟩ NewMemstore).store.deref a).Contents =
        ((StreamingUpload memDeps MagicNumberChecker.unknown
          ⟨sampleDigest, Source.ofChunks [[1], [2, 3]], 7⟩ NewMemstore).store.deref a).ID) ∧
    (∀ d a, Txn.First (StreamingUpload memDeps MagicNumberChecker.unknown
        ⟨sampleDigest, Source.ofChunks [[1], [2, 3]], 7⟩ NewMemstore).store d = some a →
      sha256Hex ((StreamingUpload memDeps MagicNumberChecker.unknown
        ⟨sampleDigest, Source.ofChunks [[1], [2, 3]], 7⟩ NewMemstore).store.deref a).Contents =
        ((StreamingUpload memDeps MagicNumberChecker.unknown
          ⟨sampleDigest, Source.ofChunks [[1], [2, 3]], 7⟩ NewMemstore).store.deref a).ID ∧
      indexKey ((StreamingUpload memDeps MagicNumberChecker.unknown
        ⟨sampleDigest, Source.ofChunks [[1], [2, 3]], 7⟩ NewMemstore).store.deref a).ID =
        indexKey d)) :=
  ⟨Memstore.Ingested.upload MagicNumberChecker.unknown
      ⟨sampleDigest, Source.ofChunks [[1], [2, 3]], 7⟩ NewMemstore unknown_Reliable
      (ofChunks_NoFail _) Memstore.Ingested.init,
    content_address_invariant _
      (Memstore.Ingested.upload MagicNumberChecker.unknown
        ⟨sampleDigest, Source.ofChunks [[1], [2, 3]], 7⟩ NewMemstore unknown_Reliable
        (ofChunks_NoFail _) Memstore.Ingested.init)⟩

theorem lookup_filter_other (k k2 : String) (t : List (String × Nat)) (h : k2 ≠ k) :
    (t.filter (fun e => e.1 != k)).lookup k2 = t.lookup k2 := by
  induction t with
  | nil => rfl
  | cons e t ih =>
    obtain ⟨k1, a1⟩ := e
    by_cases h1 : k = k1
    · subst h1
      rw [filter_cons_self, lookup_cons_ne k2 k a1 t h]; exact ih
    · rw [filter_cons_ne k k1 a1 t h1]
      by_cases h2 : k2 = k1
      · subst h2; rw [lookup_cons_self, lookup_cons_self]
      · rw [lookup_cons_ne k2 k1 a1 _ h2, lookup_cons_ne k2 k1 a1 _ h2]; exact ih

theorem toLower_eq_empty (s : String) (h : toLower s = "") : s = "" := by
  have h2 := congrArg String.data h
  simp [toLower] at h2
  cases s with
  | mk data => simp at h2; subst h2; rfl

theorem frame_Upload (d d2 : String) (crc : Nat) (s : Memstore)
    (hne : indexKey d ≠ indexKey d2) :
    (Memstore.Upload d crc s).2.blob.lookup (indexKey d2) = s.blob.lookup (indexKey d2) ∧
    ∀ a, a < s.heap.length → (Memstore.Upload d crc s).2.deref a = s.deref a := by
  by_cases hh : s.Holds d
  · rw [Upload_present d crc s hh]; exact ⟨rfl, fun _ _ => rfl⟩
  · by_cases hd : d = ""
    · subst hd
      rw [Upload_empty crc s hh]; exact ⟨rfl, fun _ _ => rfl⟩
    · rw [Upload_absent d crc s hd hh]
      refine ⟨lookup_cons_ne _ _ _ _ (fun h => hne h.symm), fun a ha => ?_⟩
      exact deref_append_lt s.heap _ s.blob _ a ha

theorem frame_Delete (d d2 : String) (s : Memstore) (hwf : s.WF)
    (hne : indexKey d ≠ indexKey d2) :
    (Memstore.Delete d s).2.blob.lookup (indexKey d2) = s.blob.lookup (indexKey d2) ∧
    ∀ a, (Memstore.Delete d s).2.deref a = s.deref a := by
  by_cases hh : s.Holds d
  · rw [Delete_present d s hwf hh]
    exact ⟨lookup_filter_other _ _ _ (fun h => hne h.symm), fun _ => rfl⟩
  · rw [Delete_absent d s hh]; exact ⟨rfl, fun _ => rfl⟩

theorem frame_StreamingUpload {τ : Type} (ftw : MagicNumberChecker τ) (inp : IncomingBlob)
    (s : Memstore) (d2 : String) (hwf : s.WF) (hne : indexKey inp.SHA256 ≠ indexKey d2) :
    (StreamingUpload memDeps ftw inp s).store.WF ∧
    (StreamingUpload memDeps ftw inp s).store.blob.lookup (indexKey d2) =
      s.blob.lookup (indexKey d2) ∧
    ∀ a, a < s.heap.length → (StreamingUpload memDeps ftw inp s).store.deref a = s.deref a := by
  apply StreamingUpload_invariant
    (fun s1 : Memstore => s1.WF ∧ s1.blob.lookup (indexKey d2) = s.blob.lookup (indexKey d2) ∧
      ∀ a, a < s.heap.length → s1.deref a = s.deref a) memDeps ftw inp s
  · exact ⟨WF_Upload inp.SHA256 inp.CRC32C s hwf, frame_Upload inp.SHA256 d2 inp.CRC32C s hne⟩
  · intro w hw
    have h2 : (Memstore.Upload inp.SHA256 inp.CRC32C s).1.1 = some w := hw
    rcases Upload_sink_cases inp.SHA256 inp.CRC32C s with h | h
    · rw [h] at h2; cases h2
    · rw [h] at h2
      injection h2 with h2
      subst h2
      constructor
      · intro p s1 ⟨h1, h3, h4⟩
        refine ⟨WF_sink_Write _ p s1 h1, h3, fun a ha => ?_⟩
        have : (((Memblob.sink s.heap.length).Write p s1).2).deref a = s1.deref a :=
          deref_assign_ne s1 s.heap.length a _ (Nat.ne_of_gt ha)
        rw [this]; exact h4 a ha
      · intro s1 ⟨h1, h3, h4⟩
        refine ⟨WF_sink_Close _ s1 h1, h3, fun a ha => ?_⟩
        have : (((Memblob.sink s.heap.length).Close s1).2).deref a = s1.deref a :=
          deref_assign_ne s1 s.heap.length a _ (Nat.ne_of_gt ha)
        rw [this]; exact h4 a ha
  · intro s1 ⟨h1, h3, h4⟩
    have hf := frame_Delete inp.SHA256 d2 s1 h1 hne
    refine ⟨WF_Delete inp.SHA256 s1 h1, ?_, fun a ha => ?_⟩
    · exact hf.1.trans h3
    · exact (hf.2 a).trans (h4 a ha)

/-- C19 (operations on one digest do not touch other digests). For every store that
satisfies the representation invariant and digests `d`, `d2` whose index keys differ:
`StreamingUpload` with claimed digest `d` (whatever its outcome) and `Delete(d)` leave the
lookup of `d2` and the record found under `d2` exactly as they were. -/
theorem other_digests_untouched {τ : Type} (ftw : MagicNumberChecker τ) (inp : IncomingBlob)
    (s : Memstore) (d2 : String) (hwf : s.WF) (hne : indexKey inp.SHA256 ≠ indexKey d2) :
    (Txn.First (StreamingUpload memDeps ftw inp s).store d2 = Txn.First s d2 ∧
      ∀ a, Txn.First s d2 = some a →
        (StreamingUpload memDeps ftw inp s).store.deref a = s.deref a) ∧
    (Txn.First (Memstore.Delete inp.SHA256 s).2 d2 = Txn.First s d2 ∧
      ∀ a, Txn.First s d2 = some a →
        (Memstore.Delete inp.SHA256 s).2.deref a = s.deref a) := by
  obtain ⟨_, h2, h3⟩ := frame_StreamingUpload ftw inp s d2 hwf hne
  have hd := frame_Delete inp.SHA256 d2 s hwf hne
  refine ⟨⟨h2, fun a ha => h3 a ?_⟩, ⟨hd.1, fun a _ => hd.2 a⟩⟩
  exact (hwf _ _ (lookup_some_mem _ _ _ ha)).1

theorem other_digests_untouched_witness :
    sampleStore.WF ∧ indexKey (sha256Hex []) ≠ indexKey sampleDigest ∧
    ((Txn.First (StreamingUpload memDeps MagicNumberChecker.unknown
          ⟨sha256Hex [], Source.ofChunks [], 0⟩ sampleStore).store sampleDigest =
        Txn.First sampleStore sampleDigest ∧
      ∀ a, Txn.First sampleStore sampleDigest = some a →
        (StreamingUpload memDeps MagicNumberChecker.unknown
          ⟨sha256Hex [], Source.ofChunks [], 0⟩ sampleStore).store.deref a =
          sampleStore.deref a) ∧
    (Txn.First (Memstore.Delete (sha256Hex []) sampleStore).2 sampleDigest =
        Txn.First sampleStore sampleDigest ∧
      ∀ a, Txn.First sampleStore sampleDigest = some a →
        (Memstore.Delete (sha256Hex []) sampleStore).2.deref a = sampleStore.deref a)) :=
  ⟨sampleStore_WF, by decide,
    other_digests_untouched MagicNumberChecker.unknown ⟨sha256Hex [], Source.ofChunks [], 0⟩
      sampleStore sampleDigest sampleStore_WF (by decide)⟩

/-- C20 (index keys ignore letter case, the digest comparison does not). For digests `d`,
`d2` with the same index key, after `Upload(d)` created a record: `Download(d2)` finds it,
`Delete(d2)` removes it, and `Upload(d2)` returns `(nil, nil)`. And `StreamingUpload` with a
claimed digest that has the key of the true digest without being equal to it, absent from
the store, returns the hash-mismatch error and leaves no record behind. -/
theorem keys_fold_case_pipeline_does_not {τ : Type} (ftw : MagicNumberChecker τ)
    (s : Memstore) (d d2 : String) (crc : Nat) (chunks : List Bytes) :
    (d ≠ "" → ¬ s.Holds d → indexKey d = indexKey d2 →
      Memstore.Download d2 (Memstore.Upload d crc s).2 =
        ((some (Memblob.reader s.heap.length), none), (Memstore.Upload d crc s).2) ∧
      (Memstore.Delete d2 (Memstore.Upload d crc s).2).1 = none ∧
      Memstore.Download d (Memstore.Delete d2 (Memstore.Upload d crc s).2).2 =
        ((none, some GoError.ErrHashNotFound),
          (Memstore.Delete d2 (Memstore.Upload d crc s).2).2) ∧
      ∀ crc2, Memstore.Upload d2 crc2 (Memstore.Upload d crc s).2 =
        ((none, none), (Memstore.Upload d crc s).2)) ∧
    (ftw.Reliable → indexKey d = indexKey (sha256Hex chunks.flatten) →
      d ≠ sha256Hex chunks.flatten → ¬ s.Holds d →
      (StreamingUpload memDeps ftw ⟨d, Source.ofChunks chunks, crc⟩ s).err =
        some (GoError.New "supplied hash did not match file hash") ∧
      (StreamingUpload memDeps ftw ⟨d, Source.ofChunks chunks, crc⟩ s).store.blob = s.blob ∧
      ¬ (StreamingUpload memDeps ftw ⟨d, Source.ofChunks chunks, crc⟩ s).store.Holds d ∧
      ¬ (StreamingUpload memDeps ftw ⟨d, Source.ofChunks chunks, crc⟩ s).store.Holds
        (sha256Hex chunks.flatten)) := by
  constructor
  · intro hd habs hk
    have hlk : s.blob.lookup (indexKey d) = none := (First_eq_none_iff s d).2 habs
    rw [Upload_absent d crc s hd habs]
    have hF : Txn.First
        ⟨s.heap ++ [NewMemblob d []], (indexKey d, s.heap.length) :: s.blob⟩ d2 =
        some s.heap.length := by
      simp [Txn.First, ← hk]
    have hH : (Memstore.mk (s.heap ++ [NewMemblob d []])
        ((indexKey d, s.heap.length) :: s.blob)).Holds d2 := Holds_of_First _ _ _ hF
    have hdel : Memstore.Delete d2
        ⟨s.heap ++ [NewMemblob d []], (indexKey d, s.heap.length) :: s.blob⟩ =
        (none, ⟨s.heap ++ [NewMemblob d []], s.blob⟩) := by
      simp only [Memstore.Delete, hF]
      simp [Txn.Delete, fromObject, Memstore.deref, NewMemblob, hd,
        filter_of_lookup_none _ _ hlk]
    refine ⟨Download_of_First _ _ _ hF, by rw [hdel], ?_, fun crc2 => Upload_present _ _ _ hH⟩
    rw [hdel]
    exact Download_absent _ d habs
  · intro hftw hk hne habs
    have hd : d ≠ "" := by
      intro h
      subst h
      exact sha256Hex_ne_empty _ (toLower_eq_empty _ hk.symm)
    rw [StreamingUpload_absent ftw hftw chunks d crc s hd habs]
    have h1 : ¬ sha256Hex chunks.flatten = d := fun h => hne h.symm
    simp only [h1, if_false]
    refine ⟨trivial, trivial, habs, ?_⟩
    intro ⟨e, he, hke⟩
    exact habs ⟨e, he, hke.trans hk.symm⟩

theorem keys_fold_case_pipeline_does_not_witness :
    (sampleDigest ≠ "" ∧ ¬ NewMemstore.Holds sampleDigest ∧
      indexKey sampleDigest = indexKey sampleDigestUpper ∧
      (Memstore.Download sampleDigestUpper (Memstore.Upload sampleDigest 0 NewMemstore).2 =
        ((some (Memblob.reader NewMemstore.heap.length), none),
          (Memstore.Upload sampleDigest 0 NewMemstore).2) ∧
      (Memstore.Delete sampleDigestUpper (Memstore.Upload sampleDigest 0 NewMemstore).2).1 =
        none ∧
      Memstore.Download sampleDigest
          (Memstore.Delete sampleDigestUpper (Memstore.Upload sampleDigest 0 NewMemstore).2).2 =
        ((none, some GoError.ErrHashNotFound),
          (Memstore.Delete sampleDigestUpper (Memstore.Upload sampleDigest 0 NewMemstore).2).2) ∧
      ∀ crc2, Memstore.Upload sampleDigestUpper crc2
          (Memstore.Upload sampleDigest 0 NewMemstore).2 =
        ((none, none), (Memstore.Upload sampleDigest 0 NewMemstore).2))) ∧
    (MagicNumberChecker.unknown.Reliable ∧
      indexKey sampleDigestUpper = indexKey (sha256Hex ([[1], [2, 3]] : List Bytes).flatten) ∧
      sampleDigestUpper ≠ sha256Hex ([[1], [2, 3]] : List Bytes).flatten ∧
      ¬ NewMemstore.Holds sampleDigestUpper ∧
      ((StreamingUpload memDeps MagicNumberChecker.unknown
          ⟨sampleDigestUpper, Source.ofChunks [[1], [2, 3]], 0⟩ NewMemstore).err =
        some (GoError.New "supplied hash did not match file hash") ∧
      (StreamingUpload memDeps MagicNumberChecker.unknown
          ⟨sampleDigestUpper, Source.ofChunks [[1], [2, 3]], 0⟩ NewMemstore).store.blob =
        NewMemstore.blob ∧
      ¬ (StreamingUpload memDeps MagicNumberChecker.unknown
          ⟨sampleDigestUpper, Source.ofChunks [[1], [2, 3]], 0⟩ NewMemstore).store.Holds
            sampleDigestUpper ∧
      ¬ (StreamingUpload memDeps MagicNumberChecker.unknown
          ⟨sampleDigestUpper, Source.ofChunks [[1], [2, 3]], 0⟩ NewMemstore).store.Holds
            (sha256Hex ([[1], [2, 3]] : List Bytes).flatten))) :=
  ⟨⟨sampleDigest_ne_empty, NewMemstore_not_Holds _, by decide,
      (keys_fold_case_pipeline_does_not MagicNumberChecker.unknown NewMemstore sampleDigest
        sampleDigestUpper 0 []).1 sampleDigest_ne_empty (NewMemstore_not_Holds _) (by decide)⟩,
    ⟨unknown_Reliable, by decide, by decide, NewMemstore_not_Holds _,
      (keys_fold_case_pipeline_does_not MagicNumberChecker.unknown NewMemstore sampleDigestUpper
        sampleDigestUpper 0 [[1], [2, 3]]).2 unknown_Reliable (by decide) (by decide)
        (NewMemstore_not_Holds _)⟩⟩

end Blobs
